import Mathlib

/-!
# The Python Weekly Brief: auth, data-access and presentation layers

A shallow embedding of `src/auth.js`, `src/db.js` and `src/script.js`.

* JavaScript strings are lists of UTF-16 code units (`JSString`), so that
  `length`, `substring`, `includes`, `split` and `trim` count what JavaScript counts.
* The managed backend (Supabase / PostgREST) is an external collaborator.  A request
  either is served from the tables, or fails; a failure is an error object that is
  either returned in the `error` field of the response or thrown.
* Handlers whose only observable behaviour is a sequence of side effects (alerts,
  remote calls, DOM updates) return that sequence.
-/

namespace PythonBrief

/-! ## JavaScript strings -/

/-- A JavaScript string: the sequence of its UTF-16 code units. -/
abbrev JSString := List Nat

/-- UTF-16 encoding of one Unicode scalar value. -/
def utf16 (c : Char) : List Nat :=
  if c.toNat < 65536 then [c.toNat]
  else [55296 + (c.toNat - 65536) / 1024, 56320 + (c.toNat - 65536) % 1024]

/-- The JavaScript string denoted by a string literal of the source. -/
def js (s : String) : JSString :=
  s.toList.flatMap utf16

/-- `String.prototype.substring(start, end)`: both indices are clamped to the length and
swapped when `start > end`. -/
def substring (s : JSString) (start stop : Nat) : JSString :=
  let a := min start s.length
  let b := min stop s.length
  (s.drop (min a b)).take (max a b - min a b)

/-- `String.prototype.split(sep)` for a separator of one code unit. -/
def split (sep : Nat) : JSString → List JSString
  | [] => [[]]
  | c :: cs =>
    if c = sep then [] :: split sep cs
    else
      match split sep cs with
      | [] => [[c]]
      | p :: ps => (c :: p) :: ps

/-- White space and line terminators, as removed by `String.prototype.trim`. -/
def isWhiteSpace (c : Nat) : Bool :=
  c = 9 || c = 10 || c = 11 || c = 12 || c = 13 || c = 32 || c = 160 || c = 5760 ||
  (8192 ≤ c && c ≤ 8202) || c = 8232 || c = 8233 || c = 8239 || c = 8287 ||
  c = 12288 || c = 65279

/-- `String.prototype.trim`. -/
def trim (s : JSString) : JSString :=
  ((s.dropWhile isWhiteSpace).reverse.dropWhile isWhiteSpace).reverse

/-- `String.prototype.includes`, as a proposition: `s` occurs in `t` as a run of
consecutive code units. -/
def includes (t s : JSString) : Prop :=
  s <:+: t

/-- Template interpolation `${v}` of a nullable string. -/
def interpolate : Option JSString → JSString
  | some v => v
  | none => js "null"

/-- An error object of the remote provider (`PostgrestError`, `AuthError`, `Error`):
the two fields the code reads. -/
structure JSError where
  message : JSString
  code : JSString
deriving DecidableEq, Repr

/-- What `await remoteCall` does, for a call whose response is destructured as
`{ data, error }`: the response is `{data, error: null}`, or `{data: null, error}`,
or the call throws. -/
inductive Response (α : Type) where
  | data (d : α)
  | error (e : JSError)
  | threw (e : JSError)
deriving DecidableEq, Repr

/-! ## Rows of the two tables -/

/-- A `timestamptz` value, as its UTC calendar fields; `time` counts microseconds
since midnight. -/
structure Timestamp where
  year : Nat
  month : Nat
  day : Nat
  time : Nat
deriving DecidableEq, Repr

/-- A row of the `issues` table.  `published_at` is nullable: `none` is a draft. -/
structure Issue where
  id : Nat
  slug : JSString
  title : JSString
  short_summary : JSString
  full_content : JSString
  has_download : Bool
  download_url : Option JSString
  published_at : Option Timestamp
deriving DecidableEq, Repr

/-- A row of the `users` table.  The two flags are nullable boolean columns. -/
structure User where
  id : JSString
  email : JSString
  is_premium : Option Bool
  is_admin : Option Bool
  created_at : Option Timestamp
deriving DecidableEq, Repr

/-- The identity of a session (`session.user`): the two fields the code reads. -/
structure AuthUser where
  id : JSString
  email : JSString
deriving DecidableEq, Repr

/-- The two tables of the managed store. -/
structure Tables where
  issues : List Issue
  users : List User
deriving DecidableEq, Repr

/-! ## The managed backend

A request is answered from the tables unless it fails for a reason that the tables of the
model do not give (network, permission, a constraint of the schema): `Fault` is such a
failure, delivered in the `error` field of the response or thrown.  An operation numbers its remote calls from 0; `faults n` is the failure, if
any, of call `n`. -/

/-- A failure of a remote call that the tables of the model do not give. -/
inductive Fault where
  | error (e : JSError)
  | threw (e : JSError)
deriving DecidableEq, Repr

/-- The failures of the remote calls of one operation, by call number. -/
abbrev Faults := Nat → Option Fault

/-- No remote call fails. -/
def noFaults : Faults := fun _ => none

/-- The error of `.single()` when the request does not select exactly one row. -/
def notFound : JSError :=
  { message := js "JSON object requested, multiple (or no) rows returned"
    code := js "PGRST116" }

/-- Delivery of the answer `answer` of the tables to a request. -/
def respond {α : Type} (fault : Option Fault) (answer : Except JSError α) : Response α :=
  match fault with
  | some (Fault.error e) => Response.error e
  | some (Fault.threw e) => Response.threw e
  | none =>
    match answer with
    | Except.ok d => Response.data d
    | Except.error e => Response.error e

/-- The modifier `.single()`: exactly one row, or the error `PGRST116`. -/
def single {α : Type} (rows : Except JSError (List α)) : Except JSError α :=
  match rows with
  | Except.error e => Except.error e
  | Except.ok [r] => Except.ok r
  | Except.ok _ => Except.error notFound

/-- The request `.from('users').select(...).eq('id', id)` (the `id` column is text). -/
def usersById (db : Tables) (id : JSString) : Except JSError (List User) :=
  Except.ok (db.users.filter fun u => u.id = id)

/-- The JavaScript expression `flag || false` for a nullable boolean. -/
def orFalse : Option Bool → Bool
  | some true => true
  | _ => false

/-! ## The managed backend: requests on the issues table

The fragment of PostgREST that db.js uses.  A literal reaches the backend as text and is
cast to the type of the column it is compared with.  Restrictions of the model:

* a `timestamptz` literal is a date `YYYY-MM-DD` with a year of four digits or more, read as
  midnight UTC; every other literal is answered with the cast error;
* the argument of `.or(...)` is a list of `column.operator.value` separated by commas, with
  the operators `eq`, `gte`, `lte` and `ilike`, unquoted values and no nesting; an unquoted
  value ends at `,` or `)`; everything else is answered with the parse error;
* `ilike` folds the case of the ASCII letters and takes a code unit for a character;
* a request with a faulty condition is answered with its error whatever the rows;
* rows that compare equal under an `order` keep the order of the table. -/

/-- The types of the columns. -/
inductive SqlType where
  | boolean
  | integer
  | text
  | timestamptz
deriving DecidableEq, Repr

/-- The value of a column in a row. -/
inductive Value where
  | null
  | boolean (b : Bool)
  | integer (n : Nat)
  | text (s : JSString)
  | timestamptz (t : Timestamp)
deriving DecidableEq, Repr

/-- Template interpolation `${n}` of a non-negative integer. -/
def decimal (n : Nat) : JSString :=
  (Nat.toDigits 10 n).map Char.toNat

/-- The number written by a non-empty run of decimal digits. -/
def parseDigits (s : JSString) : Option Nat :=
  if s ≠ [] ∧ s.all (fun c => 48 ≤ c && c ≤ 57) then
    some (s.foldl (fun acc c => 10 * acc + (c - 48)) 0)
  else none

/-- Order of two timestamps: earlier or equal. -/
def Timestamp.le (a b : Timestamp) : Bool :=
  a.year < b.year || (a.year = b.year &&
    (a.month < b.month || (a.month = b.month &&
      (a.day < b.day || (a.day = b.day && a.time ≤ b.time)))))

/-- A date literal `YYYY-MM-DD`, as the timestamp of its midnight. -/
def parseDate (s : JSString) : Option Timestamp :=
  match split 45 s with
  | [y, m, d] =>
    match parseDigits y, parseDigits m, parseDigits d with
    | some year, some month, some day =>
      if 4 ≤ y.length ∧ m.length = 2 ∧ d.length = 2 ∧
          1 ≤ month ∧ month ≤ 12 ∧ 1 ≤ day ∧ day ≤ 31 then
        some { year := year, month := month, day := day, time := 0 }
      else none
    | _, _, _ => none
  | _ => none

/-- The error of a literal that cannot be cast to the type of its column. -/
def castError (v : JSString) : JSError :=
  { message := js "invalid input syntax: \"" ++ v ++ js "\"", code := js "22P02" }

/-- The error of a condition on a column the table does not have. -/
def undefinedColumn (c : JSString) : JSError :=
  { message := js "column issues." ++ c ++ js " does not exist", code := js "42703" }

/-- The error of an operator that does not apply to the type of the column. -/
def undefinedOperator : JSError :=
  { message := js "operator does not exist", code := js "42883" }

/-- The error of a `LIKE` pattern that ends with the escape character. -/
def invalidEscape : JSError :=
  { message := js "LIKE pattern must not end with escape character", code := js "22025" }

/-- The error of a filter that PostgREST cannot parse. -/
def parseError (raw : JSString) : JSError :=
  { message := js "\"failed to parse logic tree ((" ++ raw ++ js "))\"", code := js "PGRST100" }

/-- Cast of a literal to the type of a column. -/
def castLiteral (ty : SqlType) (v : JSString) : Except JSError Value :=
  match ty with
  | SqlType.text => Except.ok (Value.text v)
  | SqlType.integer =>
    match parseDigits v with
    | some n => Except.ok (Value.integer n)
    | none => Except.error (castError v)
  | SqlType.boolean =>
    if v = js "true" then Except.ok (Value.boolean true)
    else if v = js "false" then Except.ok (Value.boolean false)
    else Except.error (castError v)
  | SqlType.timestamptz =>
    match parseDate v with
    | some t => Except.ok (Value.timestamptz t)
    | none => Except.error (castError v)

/-- Whether `a ≤ b`, for two values of one type; `none` is the SQL null, the result of a
comparison with a null. -/
def Value.le : Value → Value → Option Bool
  | Value.boolean a, Value.boolean b => some (!a || b)
  | Value.integer a, Value.integer b => some (a ≤ b)
  | Value.text a, Value.text b => some (decide (a ≤ b))
  | Value.timestamptz a, Value.timestamptz b => some (a.le b)
  | _, _ => none

/-- The columns of the issues table: type and value in a row. -/
def issueColumn (name : JSString) : Option (SqlType × (Issue → Value)) :=
  if name = js "id" then some (SqlType.integer, fun i => Value.integer i.id)
  else if name = js "slug" then some (SqlType.text, fun i => Value.text i.slug)
  else if name = js "title" then some (SqlType.text, fun i => Value.text i.title)
  else if name = js "short_summary" then
    some (SqlType.text, fun i => Value.text i.short_summary)
  else if name = js "full_content" then
    some (SqlType.text, fun i => Value.text i.full_content)
  else if name = js "has_download" then
    some (SqlType.boolean, fun i => Value.boolean i.has_download)
  else if name = js "download_url" then
    some (SqlType.text, fun i =>
      match i.download_url with
      | some u => Value.text u
      | none => Value.null)
  else if name = js "published_at" then
    some (SqlType.timestamptz, fun i =>
      match i.published_at with
      | some t => Value.timestamptz t
      | none => Value.null)
  else none

/-- One element of a `LIKE` pattern. -/
inductive LikeToken where
  | any
  | one
  | lit (c : Nat)
deriving DecidableEq, Repr

/-- Reading of a `LIKE` pattern: `%` (and its PostgREST alias `*`) stands for any run of
characters, `_` for any one character, and a backslash makes the next character literal. -/
def compileLike : JSString → Option (List LikeToken)
  | [] => some []
  | [92] => none
  | 92 :: c :: rest => (compileLike rest).map (LikeToken.lit c :: ·)
  | c :: rest =>
    (compileLike rest).map
      ((if c = 37 ∨ c = 42 then LikeToken.any
        else if c = 95 then LikeToken.one else LikeToken.lit c) :: ·)

/-- Whether a text matches a pattern, all of it. -/
def matchLike : List LikeToken → JSString → Bool
  | [], s => s.isEmpty
  | LikeToken.any :: ts, s => s.tails.any fun t => matchLike ts t
  | LikeToken.one :: _, [] => false
  | LikeToken.one :: ts, _ :: s => matchLike ts s
  | LikeToken.lit _ :: _, [] => false
  | LikeToken.lit c :: ts, d :: s => c = d && matchLike ts s

/-- Case folding of `ILIKE`. -/
def toLower (c : Nat) : Nat :=
  if 65 ≤ c ∧ c ≤ 90 then c + 32 else c

/-- Case folding of a pattern: of its literal characters. -/
def LikeToken.lower : LikeToken → LikeToken
  | LikeToken.lit c => LikeToken.lit (toLower c)
  | t => t

/-- The operators of a condition. -/
inductive Operator where
  | eq
  | gte
  | lte
  | ilike
deriving DecidableEq, Repr

/-- The condition `column.operator.value` as a predicate on the rows, or its error. -/
def compileCondition (column : JSString) (op : Operator) (value : JSString) :
    Except JSError (Issue → Bool) :=
  match issueColumn column with
  | none => Except.error (undefinedColumn column)
  | some (ty, get) =>
    match op with
    | Operator.ilike =>
      if ty = SqlType.text then
        match compileLike value with
        | none => Except.error invalidEscape
        | some pattern =>
          Except.ok fun i =>
            match get i with
            | Value.text s => matchLike (pattern.map LikeToken.lower) (s.map toLower)
            | _ => false
      else Except.error undefinedOperator
    | Operator.eq =>
      (castLiteral ty value).map fun v i =>
        (get i).le v == some true && v.le (get i) == some true
    | Operator.gte => (castLiteral ty value).map fun v i => v.le (get i) == some true
    | Operator.lte => (castLiteral ty value).map fun v i => (get i).le v == some true

/-- The name of an operator in a filter string. -/
def parseOperator (s : JSString) : Option Operator :=
  if s = js "eq" then some Operator.eq
  else if s = js "gte" then some Operator.gte
  else if s = js "lte" then some Operator.lte
  else if s = js "ilike" then some Operator.ilike
  else none

/-- One element `column.operator.value` of the argument of `.or(...)`. -/
def parseCondition (part : JSString) : Option (JSString × Operator × JSString) :=
  match split 46 part with
  | column :: opName :: v :: vs =>
    (parseOperator opName).map fun op => (column, op, (v :: vs).intersperse [46] |>.flatten)
  | _ => none

/-- The argument of `.or(...)` as a predicate on the rows: the disjunction of its
conditions. -/
def compileOr (raw : JSString) : Except JSError (Issue → Bool) :=
  if 41 ∈ raw then Except.error (parseError raw)
  else
    (split 44 raw).foldr
      (fun part acc =>
        match parseCondition part, acc with
        | none, _ => Except.error (parseError raw)
        | some _, Except.error e => Except.error e
        | some (column, op, value), Except.ok q =>
          (compileCondition column op value).map fun p i => p i || q i)
      (Except.ok fun _ => false)

/-- The filters of the query builder that db.js applies to the issues table. -/
inductive Filter where
  | eq (column value : JSString)
  | gte (column value : JSString)
  | lte (column value : JSString)
  | notIsNull (column : JSString)
  | or (filters : JSString)
deriving DecidableEq, Repr

/-- A filter as a predicate on the rows, or its error. -/
def compileFilter : Filter → Except JSError (Issue → Bool)
  | Filter.eq column value => compileCondition column Operator.eq value
  | Filter.gte column value => compileCondition column Operator.gte value
  | Filter.lte column value => compileCondition column Operator.lte value
  | Filter.notIsNull column =>
    match issueColumn column with
    | none => Except.error (undefinedColumn column)
    | some (_, get) => Except.ok fun i => get i != Value.null
  | Filter.or raw => compileOr raw

/-- The conjunction of the filters of a request. -/
def compileFilters : List Filter → Except JSError (Issue → Bool)
  | [] => Except.ok fun _ => true
  | f :: fs =>
    match compileFilter f, compileFilters fs with
    | Except.error e, _ => Except.error e
    | Except.ok _, Except.error e => Except.error e
    | Except.ok p, Except.ok q => Except.ok fun i => p i && q i

/-- The request `.from('issues').select('*')` with the given filters. -/
def selectIssues (db : Tables) (filters : List Filter) : Except JSError (List Issue) :=
  (compileFilters filters).map fun p => db.issues.filter p

/-- Whether `a` may stand before `b` under `ORDER BY published_at DESC`: nulls first, then
the latest timestamp. -/
def publishedAtDesc (a b : Issue) : Prop :=
  match a.published_at, b.published_at with
  | none, _ => True
  | some _, none => False
  | some s, some t => t.le s = true

instance : DecidableRel publishedAtDesc := fun a b => by
  unfold publishedAtDesc
  cases a.published_at <;> cases b.published_at <;> infer_instance

/-- The modifier `.order('published_at', { ascending: false })`. -/
def orderByPublishedAtDesc (rows : List Issue) : List Issue :=
  rows.insertionSort publishedAtDesc

/-! ## Double-precision arithmetic

`getUserStats` computes `Math.round((premiumUsers / totalUsers) * 100)` on IEEE 754 doubles.
The values that occur are positive and below `2 ^ 53`, and far from the subnormal range; such
a double is a dyadic rational `m / 2 ^ k` with `m < 2 ^ 53`. -/

/-- The number `m / 2 ^ k`. -/
structure Dyadic where
  m : Nat
  k : Nat
deriving DecidableEq, Repr

/-- The integer nearest to `n / d`, the even one of the two when `n / d` is half-way. -/
def roundHalfEven (n d : Nat) : Nat :=
  if 2 * (n % d) < d then n / d
  else if d < 2 * (n % d) then n / d + 1
  else if (n / d) % 2 = 0 then n / d
  else n / d + 1

/-- The position of the leading bit of `n`, searched in at most `fuel` halvings. -/
def log2Fuel : Nat → Nat → Nat
  | 0, _ => 0
  | fuel + 1, n => if n < 2 then 0 else log2Fuel fuel (n / 2) + 1

/-- The position of the leading bit of `n`: `2 ^ log2 n ≤ n < 2 ^ (log2 n + 1)` for
`n ≠ 0`. -/
def log2 (n : Nat) : Nat :=
  log2Fuel n n

/-- The double nearest to `n / d` (round to nearest, ties to even), for `n / d < 2 ^ 53`:
the scaling by `2 ^ k` brings `n / d` into `[2 ^ 52, 2 ^ 54)`, and the significand has 53
bits. -/
def toDouble (n d : Nat) : Dyadic :=
  if n = 0 then { m := 0, k := 0 }
  else
    let k := 53 + log2 d - log2 n
    if n * 2 ^ k < 2 ^ 53 * d then { m := roundHalfEven (n * 2 ^ k) d, k := k }
    else { m := 2 * roundHalfEven (n * 2 ^ k) (2 * d), k := k }

/-- `Math.round`: the integer `⌊x + 1/2⌋`. -/
def mathRound (x : Dyadic) : Nat :=
  (2 * x.m + 2 ^ x.k) / (2 * 2 ^ x.k)

/-- The expression `totalUsers > 0 ? Math.round((premiumUsers / totalUsers) * 100) : 0`
(db.js 265): a division and a multiplication of doubles, then `Math.round`. -/
def conversionRate (premiumUsers totalUsers : Nat) : Nat :=
  if totalUsers > 0 then
    mathRound (toDouble ((toDouble premiumUsers totalUsers).m * 100)
      (2 ^ (toDouble premiumUsers totalUsers).k))
  else 0

/-! ## db.js

Each function returns what the JavaScript function returns; a mutation also returns the
tables after the call.  The `console.error` of the catch blocks is left out.  A `select`
of some columns returns the rows, of which the function reads those columns. -/

/-- The object `stats` of `getUserStats`. -/
structure UserStats where
  totalUsers : Nat
  premiumUsers : Nat
  freeUsers : Nat
  newThisMonth : Nat
  thisMonthIssues : Nat
  conversionRate : Nat
deriving DecidableEq, Repr

/-- The object `stats` of `getIssueStats`. -/
structure IssueStats where
  totalIssues : Nat
  publishedIssues : Nat
  draftIssues : Nat
  issuesWithDownloads : Nat
  thisMonthIssues : Nat
deriving DecidableEq, Repr

/-- The value of the key `data` of an envelope. -/
inductive Payload where
  | issue (i : Issue)
  | issues (l : List Issue)
  | user (u : User)
  | users (l : List User)
  | userStats (s : UserStats)
  | issueStats (s : IssueStats)
  | emptyArray
deriving DecidableEq, Repr

/-- The object a function of db.js returns; `none` is an absent key. -/
structure Envelope where
  success : Bool
  data : Option Payload
  message : Option JSString
deriving DecidableEq, Repr

/-- What a member of `window.db` returns: an envelope or a bare boolean. -/
inductive DbResult where
  | envelope (e : Envelope)
  | boolean (b : Bool)
deriving DecidableEq, Repr

/-- The object `{ success: true, data }`. -/
def successWith (d : Payload) : Envelope :=
  { success := true, data := some d, message := none }

/-- The object `{ success: true }`. -/
def successBare : Envelope :=
  { success := true, data := none, message := none }

/-- The object `{ success: false, message: error.message }` of every catch block. -/
def failureOf (e : JSError) : Envelope :=
  { success := false, data := none, message := some e.message }

/-- The common shape of the functions of db.js: `if (error) throw error`, then the
returned value, inside `try`; the catch block returns the failure envelope. -/
def envelopeOf {α : Type} (r : Response α) (onData : α → Envelope) : Envelope :=
  match r with
  | Response.data d => onData d
  | Response.error e => failureOf e
  | Response.threw e => failureOf e

/-- Embedding of `getLatestIssue` (db.js 5-22). -/
def getLatestIssue (faults : Faults) (db : Tables) : Envelope :=
  envelopeOf
    (respond (faults 0)
      (single ((selectIssues db [Filter.notIsNull (js "published_at")]).map fun rows =>
        (orderByPublishedAtDesc rows).take 1)))
    fun issue => successWith (Payload.issue issue)

/-- Embedding of `getAllIssues` (db.js 25-40). -/
def getAllIssues (faults : Faults) (db : Tables) : Envelope :=
  envelopeOf
    (respond (faults 0)
      ((selectIssues db [Filter.notIsNull (js "published_at")]).map orderByPublishedAtDesc))
    fun issues => successWith (Payload.issues issues)

/-- Embedding of `getIssueBySlug` (db.js 43-58). -/
def getIssueBySlug (faults : Faults) (db : Tables) (slug : JSString) : Envelope :=
  envelopeOf
    (respond (faults 0) (single (selectIssues db [Filter.eq (js "slug") slug])))
    fun issue => successWith (Payload.issue issue)

/-- Embedding of `getIssuesByYear` (db.js 61-81), for a year that is a non-negative
integer. -/
def getIssuesByYear (faults : Faults) (db : Tables) (year : Nat) : Envelope :=
  let startDate := decimal year ++ js "-01-01"
  let endDate := decimal year ++ js "-12-31"
  envelopeOf
    (respond (faults 0)
      ((selectIssues db
          [Filter.gte (js "published_at") startDate,
           Filter.lte (js "published_at") endDate,
           Filter.notIsNull (js "published_at")]).map orderByPublishedAtDesc))
    fun issues => successWith (Payload.issues issues)

/-- Embedding of `searchIssues` (db.js 84-100). -/
def searchIssues (faults : Faults) (db : Tables) (query : JSString) : Envelope :=
  envelopeOf
    (respond (faults 0)
      ((selectIssues db
          [Filter.or (js "title.ilike.%" ++ query ++ js "%,short_summary.ilike.%" ++ query ++
            js "%,full_content.ilike.%" ++ query ++ js "%"),
           Filter.notIsNull (js "published_at")]).map orderByPublishedAtDesc))
    fun issues => successWith (Payload.issues issues)

/-- Embedding of `getUserData` (db.js 103-118). -/
def getUserData (faults : Faults) (db : Tables) (userId : JSString) : Envelope :=
  envelopeOf (respond (faults 0) (single (usersById db userId)))
    fun user => successWith (Payload.user user)

/-- Embedding of `updateUserPremiumStatus` (db.js 121-135): the tables after the call and
the returned object. -/
def updateUserPremiumStatus (faults : Faults) (db : Tables) (userId : JSString)
    (isPremium : Bool) : Tables × Envelope :=
  match respond (faults 0) (Except.ok ()) with
  | Response.data _ =>
    ({ db with users := db.users.map fun u =>
        if u.id = userId then { u with is_premium := some isPremium } else u },
      successBare)
  | Response.error e => (db, failureOf e)
  | Response.threw e => (db, failureOf e)

/-- Embedding of `updateUserAdminStatus` (db.js 138-152). -/
def updateUserAdminStatus (faults : Faults) (db : Tables) (userId : JSString)
    (isAdmin : Bool) : Tables × Envelope :=
  match respond (faults 0) (Except.ok ()) with
  | Response.data _ =>
    ({ db with users := db.users.map fun u =>
        if u.id = userId then { u with is_admin := some isAdmin } else u },
      successBare)
  | Response.error e => (db, failureOf e)
  | Response.threw e => (db, failureOf e)

/-- Whether `a` may stand before `b` under `ORDER BY created_at DESC`. -/
def createdAtDesc (a b : User) : Prop :=
  match a.created_at, b.created_at with
  | none, _ => True
  | some _, none => False
  | some s, some t => t.le s = true

instance : DecidableRel createdAtDesc := fun a b => by
  unfold createdAtDesc
  cases a.created_at <;> cases b.created_at <;> infer_instance

/-- Embedding of `getAllUsers` (db.js 155-169). -/
def getAllUsers (faults : Faults) (db : Tables) : Envelope :=
  envelopeOf (respond (faults 0) (Except.ok (db.users.insertionSort createdAtDesc)))
    fun users => successWith (Payload.users users)

/-- The argument `issueData` of `createIssue` and `updateIssue`: a value for every column
of an issue other than `id`. -/
structure IssueData where
  slug : JSString
  title : JSString
  short_summary : JSString
  full_content : JSString
  has_download : Bool
  download_url : Option JSString
  published_at : Option Timestamp
deriving DecidableEq, Repr

/-- The row with the given id and the columns of `d`. -/
def IssueData.toRow (d : IssueData) (id : Nat) : Issue :=
  { id := id
    slug := d.slug
    title := d.title
    short_summary := d.short_summary
    full_content := d.full_content
    has_download := d.has_download
    download_url := d.download_url
    published_at := d.published_at }

/-- The id the backend gives to the next issue. -/
def nextIssueId (db : Tables) : Nat :=
  (db.issues.map fun i => i.id).foldl max 0 + 1

/-- Embedding of `createIssue` (db.js 172-187): the tables after the call and the
returned object. -/
def createIssue (faults : Faults) (db : Tables) (issueData : IssueData) : Tables × Envelope :=
  match respond (faults 0) (Except.ok (issueData.toRow (nextIssueId db))) with
  | Response.data issue =>
    ({ db with issues := db.issues ++ [issue] }, successWith (Payload.issue issue))
  | Response.error e => (db, failureOf e)
  | Response.threw e => (db, failureOf e)

/-- Embedding of `updateIssue` (db.js 190-206).  With `.single()` the update is applied
only when it affects exactly one row. -/
def updateIssue (faults : Faults) (db : Tables) (issueId : Nat) (issueData : IssueData) :
    Tables × Envelope :=
  match respond (faults 0)
      (single (Except.ok
        ((db.issues.filter fun i => i.id = issueId).map fun _ => issueData.toRow issueId))) with
  | Response.data issue =>
    ({ db with issues := db.issues.map fun i => if i.id = issueId then issue else i },
      successWith (Payload.issue issue))
  | Response.error e => (db, failureOf e)
  | Response.threw e => (db, failureOf e)

/-- Embedding of `deleteIssue` (db.js 209-223). -/
def deleteIssue (faults : Faults) (db : Tables) (issueId : Nat) : Tables × Envelope :=
  match respond (faults 0) (Except.ok ()) with
  | Response.data _ =>
    ({ db with issues := db.issues.filter fun i => i.id ≠ issueId }, successBare)
  | Response.error e => (db, failureOf e)
  | Response.threw e => (db, failureOf e)

/-- The clock and the calendar of the browser: `new Date().getMonth()`,
`new Date().getFullYear()`, and the two fields of `new Date(v)` in the time zone of the
browser. -/
structure Clock where
  thisMonth : Nat
  thisYear : Nat
  getMonth : Timestamp → Nat
  getFullYear : Timestamp → Nat

/-- The instant of `new Date(v)` for a nullable timestamp: `new Date(null)` is the epoch. -/
def dateOf : Option Timestamp → Timestamp
  | some t => t
  | none => { year := 1970, month := 1, day := 1, time := 0 }

/-- The test of the two `filter` calls on the current month (db.js 241-244, 254-257). -/
def inThisMonth (clock : Clock) (v : Option Timestamp) : Bool :=
  clock.getMonth (dateOf v) = clock.thisMonth && clock.getFullYear (dateOf v) = clock.thisYear

/-- Embedding of `getUserStats` (db.js 226-273): remote call 0 reads the users, remote
call 1 the published issues. -/
def getUserStats (faults : Faults) (clock : Clock) (db : Tables) : Envelope :=
  envelopeOf (respond (faults 0) (Except.ok db.users)) fun users =>
    let totalUsers := users.length
    let premiumUsers := (users.filter fun user => orFalse user.is_premium).length
    let freeUsers := totalUsers - premiumUsers
    let newThisMonth := (users.filter fun user => inThisMonth clock user.created_at).length
    envelopeOf
      (respond (faults 1) (selectIssues db [Filter.notIsNull (js "published_at")]))
      fun issues =>
        successWith (Payload.userStats
          { totalUsers := totalUsers
            premiumUsers := premiumUsers
            freeUsers := freeUsers
            newThisMonth := newThisMonth
            thisMonthIssues :=
              (issues.filter fun issue => inThisMonth clock issue.published_at).length
            conversionRate := conversionRate premiumUsers totalUsers })

/-- Embedding of `getIssueStats` (db.js 276-311). -/
def getIssueStats (faults : Faults) (clock : Clock) (db : Tables) : Envelope :=
  envelopeOf (respond (faults 0) (Except.ok db.issues)) fun issues =>
    let totalIssues := issues.length
    let publishedIssues := (issues.filter fun issue => issue.published_at.isSome).length
    successWith (Payload.issueStats
      { totalIssues := totalIssues
        publishedIssues := publishedIssues
        draftIssues := totalIssues - publishedIssues
        issuesWithDownloads := (issues.filter fun issue => issue.has_download).length
        thisMonthIssues :=
          (issues.filter fun issue =>
            issue.published_at.isSome && inThisMonth clock issue.published_at).length })

/-- Embedding of `canAccessPremiumContent` (db.js 314-329). -/
def canAccessPremiumContent (faults : Faults) (db : Tables) (userId : JSString) : Bool :=
  match respond (faults 0) (single (usersById db userId)) with
  | Response.data user => orFalse user.is_premium
  | Response.error _ => false
  | Response.threw _ => false

/-- Embedding of `getUserReadingHistory` (db.js 332-341), which makes no remote call. -/
def getUserReadingHistory (_userId : JSString) : Envelope :=
  successWith Payload.emptyArray

/-- A call of a member of `window.db` (db.js 344-361), with its arguments. -/
inductive DbCall where
  | getLatestIssue
  | getAllIssues
  | getIssueBySlug (slug : JSString)
  | getIssuesByYear (year : Nat)
  | searchIssues (query : JSString)
  | getUserData (userId : JSString)
  | updateUserPremiumStatus (userId : JSString) (isPremium : Bool)
  | updateUserAdminStatus (userId : JSString) (isAdmin : Bool)
  | getAllUsers
  | createIssue (issueData : IssueData)
  | updateIssue (issueId : Nat) (issueData : IssueData)
  | deleteIssue (issueId : Nat)
  | getUserStats
  | getIssueStats
  | canAccessPremiumContent (userId : JSString)
  | getUserReadingHistory (userId : JSString)
deriving DecidableEq, Repr

/-- The object `window.db`: the tables after the call and the value returned. -/
def window.db (call : DbCall) (faults : Faults) (clock : Clock) (db : Tables) :
    Tables × DbResult :=
  match call with
  | DbCall.getLatestIssue => (db, DbResult.envelope (getLatestIssue faults db))
  | DbCall.getAllIssues => (db, DbResult.envelope (getAllIssues faults db))
  | DbCall.getIssueBySlug slug => (db, DbResult.envelope (getIssueBySlug faults db slug))
  | DbCall.getIssuesByYear year => (db, DbResult.envelope (getIssuesByYear faults db year))
  | DbCall.searchIssues query => (db, DbResult.envelope (searchIssues faults db query))
  | DbCall.getUserData userId => (db, DbResult.envelope (getUserData faults db userId))
  | DbCall.updateUserPremiumStatus userId isPremium =>
    ((updateUserPremiumStatus faults db userId isPremium).1,
      DbResult.envelope (updateUserPremiumStatus faults db userId isPremium).2)
  | DbCall.updateUserAdminStatus userId isAdmin =>
    ((updateUserAdminStatus faults db userId isAdmin).1,
      DbResult.envelope (updateUserAdminStatus faults db userId isAdmin).2)
  | DbCall.getAllUsers => (db, DbResult.envelope (getAllUsers faults db))
  | DbCall.createIssue issueData =>
    ((createIssue faults db issueData).1,
      DbResult.envelope (createIssue faults db issueData).2)
  | DbCall.updateIssue issueId issueData =>
    ((updateIssue faults db issueId issueData).1,
      DbResult.envelope (updateIssue faults db issueId issueData).2)
  | DbCall.deleteIssue issueId =>
    ((deleteIssue faults db issueId).1, DbResult.envelope (deleteIssue faults db issueId).2)
  | DbCall.getUserStats => (db, DbResult.envelope (getUserStats faults clock db))
  | DbCall.getIssueStats => (db, DbResult.envelope (getIssueStats faults clock db))
  | DbCall.canAccessPremiumContent userId =>
    (db, DbResult.boolean (canAccessPremiumContent faults db userId))
  | DbCall.getUserReadingHistory userId =>
    (db, DbResult.envelope (getUserReadingHistory userId))

/-! ## auth.js: sign-up -/

/-- Observable side effects of the auth handlers. -/
inductive AuthEffect where
  | preventDefault
  | alert (msg : JSString)
  | consoleError (label : JSString) (e : JSError)
  | signUp (email password : JSString)
  | setAuthContent (html : JSString)
  | insertUser (row : User)
  | updateAuthUI (user : Option AuthUser)
  | closeAuthModal
deriving DecidableEq, Repr

/-- The markup written into `#auth-content` after a successful sign-up
(auth.js lines 268-274). -/
def signupSuccessHtml : JSString :=
  js "
            <div class=\"auth-success\">
                <h2>Account Created!</h2>
                <p>Please check your email to verify your account before signing in.</p>
                <button class=\"btn btn-primary\" onclick=\"closeAuthModal()\">Close</button>
            </div>
        "

/-- Embedding of `handleSignup` (auth.js 241-280).  `email`, `password` and `confirmPassword`
are the values of the three form fields; `remote` is the response of
`supabase.auth.signUp` to the credentials it is called with.  The result is the
sequence of side effects, in order. -/
def handleSignup (remote : JSString → JSString → Response Unit)
    (email password confirmPassword : JSString) : List AuthEffect :=
  AuthEffect.preventDefault ::
  if password ≠ confirmPassword then
    [AuthEffect.alert (js "Passwords do not match")]
  else if password.length < 6 then
    [AuthEffect.alert (js "Password must be at least 6 characters long")]
  else
    AuthEffect.signUp email password ::
    match remote email password with
    | Response.data _ => [AuthEffect.setAuthContent signupSuccessHtml]
    | Response.error e =>
        [AuthEffect.consoleError (js "Signup error:") e,
         AuthEffect.alert (js "Signup failed: " ++ e.message)]
    | Response.threw e =>
        [AuthEffect.consoleError (js "Signup error:") e,
         AuthEffect.alert (js "Signup failed: " ++ e.message)]

/-- The trace contains a call of the remote `signUp`. -/
def callsSignUp (t : List AuthEffect) : Prop :=
  ∃ e p, AuthEffect.signUp e p ∈ t

/-- The trace contains an alert. -/
def alerts (t : List AuthEffect) : Prop :=
  ∃ m, AuthEffect.alert m ∈ t


/-! ## auth.js: premium and admin checks, first-login bookkeeping -/

/-- Embedding of `isUserPremium` (auth.js 326-341); `currentUser` is the module-level
variable. -/
def isUserPremium (faults : Faults) (db : Tables) (currentUser : Option AuthUser) : Bool :=
  match currentUser with
  | none => false
  | some u =>
    match respond (faults 0) (single (usersById db u.id)) with
    | Response.data userData => orFalse userData.is_premium
    | Response.error _ => false
    | Response.threw _ => false

/-- Embedding of `isUserAdmin` (auth.js 344-359). -/
def isUserAdmin (faults : Faults) (db : Tables) (currentUser : Option AuthUser) : Bool :=
  match currentUser with
  | none => false
  | some u =>
    match respond (faults 0) (single (usersById db u.id)) with
    | Response.data userData => orFalse userData.is_admin
    | Response.error _ => false
    | Response.threw _ => false

/-- What `handleUserLogin` reads besides the tables: the failures of its two remote calls
(0 the lookup, 1 the insert), the clock, and whether `#auth-modal` exists. -/
structure LoginEnv where
  faults : Faults
  now : Timestamp
  authModal : Bool

/-- The catch block of `handleUserLogin` (auth.js 71-74). -/
def loginFailed (e : JSError) : List AuthEffect :=
  [AuthEffect.consoleError (js "Error handling user login:") e,
   AuthEffect.alert (js "Error setting up user account: " ++ e.message)]

/-- The end of the try block of `handleUserLogin` (auth.js 63-69). -/
def loginDone (env : LoginEnv) (user : AuthUser) : List AuthEffect :=
  AuthEffect.updateAuthUI (some user) ::
  (if env.authModal then [AuthEffect.closeAuthModal] else [])

/-- The record `handleUserLogin` inserts (auth.js 52-58). -/
def newUserRecord (env : LoginEnv) (user : AuthUser) : User :=
  { id := user.id
    email := user.email
    is_premium := some false
    is_admin := some false
    created_at := some env.now }

/-- The insert of `handleUserLogin` (auth.js 48-61) and what follows it. -/
def createUserRecord (env : LoginEnv) (db : Tables) (user : AuthUser) :
    Tables × List AuthEffect :=
  match respond (env.faults 1) (Except.ok ()) with
  | Response.data _ =>
    ({ db with users := db.users ++ [newUserRecord env user] },
      AuthEffect.insertUser (newUserRecord env user) :: loginDone env user)
  | Response.error e => (db, loginFailed e)
  | Response.threw e => (db, loginFailed e)

/-- Embedding of `handleUserLogin` (auth.js 35-75): the tables after the call and the
side effects, in order. -/
def handleUserLogin (env : LoginEnv) (db : Tables) (user : AuthUser) :
    Tables × List AuthEffect :=
  match respond (env.faults 0) (single (usersById db user.id)) with
  | Response.threw e => (db, loginFailed e)
  | Response.error e =>
    if e.code ≠ js "PGRST116" then (db, loginFailed e)
    else createUserRecord env db user
  | Response.data _ => (db, loginDone env user)

/-- The tables after the sign-ins of `user` handled one after the other, one per
environment of `envs`. -/
def signIns (user : AuthUser) (envs : List LoginEnv) (db : Tables) : Tables :=
  envs.foldl (fun t env => (handleUserLogin env t user).1) db

/-- A failure that is not the answer `PGRST116`, which the backend gives only for a
`.single()` request that selects no row or several. -/
def Fault.transient : Option Fault → Prop
  | some (Fault.error e) => e.code ≠ js "PGRST116"
  | _ => True


/-! ## script.js: rendering the latest issue -/

/-- Embedding of `checkPremiumStatus` (script.js 34-50): the returned value, and the value
of the module-level flag `isUserPremium` after the call.  `currentUser` and `isUserPremium`
are the module-level variables of script.js before the call. -/
def checkPremiumStatus (faults : Faults) (db : Tables) (currentUser : Option AuthUser)
    (isUserPremium : Bool) : Bool × Bool :=
  match currentUser with
  | none => (false, isUserPremium)
  | some u =>
    match respond (faults 0) (single (usersById db u.id)) with
    | Response.data userData => (orFalse userData.is_premium, orFalse userData.is_premium)
    | Response.error _ => (false, false)
    | Response.threw _ => (false, isUserPremium)

/-- The lookup of the record of `u` in the users table succeeds with `row`: the request
does not fail and `row` is the one record whose id is that of `u`. -/
def lookupSucceeds (faults : Faults) (db : Tables) (u : AuthUser) (row : User) : Prop :=
  faults 0 = none ∧ (db.users.filter fun r => r.id = u.id) = [row]

/-- What script.js reads from the page and the browser: whether the element
`#latest-issue-card` exists, and `new Date(v).toLocaleDateString('en-US', ...)`, which
depends on the browser's time zone. -/
structure Page where
  latestIssueCard : Bool
  toLocaleDateString : Option Timestamp → JSString

/-- The `summary-content` block (script.js 100-102): one paragraph per line of the short
summary that is not blank. -/
def summaryParagraphs (short_summary : JSString) : JSString :=
  ((split 10 short_summary).map fun line =>
    if trim line ≠ [] then js "<p>" ++ line ++ js "</p>" else []).flatten

/-- The content preview (script.js 110). -/
def contentPreview (full_content : JSString) : JSString :=
  substring full_content 0 400 ++ (if full_content.length > 400 then js "..." else [])

/-- The download link of the premium block (script.js 114-118). -/
def downloadLink (issue : Issue) : JSString :=
  if issue.has_download then
    js "\n                        <a href=\"" ++ interpolate issue.download_url ++
    js "\" class=\"btn btn-outline\" target=\"_blank\">\n                            📥 Download Resource\n                        </a>\n                    "
  else []

/-- The links under the preview (script.js 111-120). -/
def premiumActions (issue : Issue) : JSString :=
  js "\n                </div>\n                <div class=\"issue-actions\">\n                    <a href=\"/archive/" ++
  issue.slug ++
  js "\" class=\"btn btn-primary\">Read Full Issue</a>\n                    " ++
  downloadLink issue ++
  js "\n                </div>\n            </div>\n        "

/-- The opening of the premium block, up to the preview (script.js 106-110). -/
def previewOpen : JSString :=
  js "\n            <div class=\"issue-full-content\">\n                <h4>Full Content</h4>\n                <div class=\"content-preview\">\n                    "

/-- The block shown to a premium viewer (script.js 106-120). -/
def premiumBlock (issue : Issue) : JSString :=
  previewOpen ++ contentPreview issue.full_content ++ premiumActions issue

/-- The locked teaser shown to everybody else (script.js 121-133). -/
def premiumLock : JSString :=
  js "\n            <div class=\"issue-premium-lock\">\n                <div class=\"premium-lock-icon\">🔒</div>\n                <h4>Unlock Full Content</h4>\n                <p>Upgrade to Premium to read the complete issue and access downloadable resources.</p>\n                <div class=\"premium-cta\">\n                    <button class=\"btn btn-primary\" onclick=\"showAuthModal('signup')\">\n                        Upgrade to Premium - $9.99/month\n                    </button>\n                    <p class=\"premium-note\">Cancel anytime. No commitment required.</p>\n                </div>\n            </div>\n        "

/-- Header and summary of the card (script.js 92-105). -/
def cardHeader (pg : Page) (issue : Issue) : JSString :=
  js "\n        <div class=\"issue-header\">\n            <h3>" ++
  issue.title ++
  js "</h3>\n            <span class=\"issue-date\">" ++
  pg.toLocaleDateString issue.published_at ++
  js "</span>\n        </div>\n        \n        <div class=\"issue-summary\">\n            <h4>This Week's Highlights</h4>\n            <div class=\"summary-content\">\n                " ++
  summaryParagraphs issue.short_summary ++
  js "\n            </div>\n        </div>\n\n        "

/-- Footer of the card (script.js 134-139). -/
def cardFooter (issue : Issue) : JSString :=
  js "\n        \n        <div class=\"issue-footer\">\n            <span class=\"issue-slug\">" ++
  issue.slug ++
  js "</span>\n            " ++
  (if issue.has_download then js "<span class=\"download-badge\">📥</span>" else []) ++
  js "\n        </div>\n    "

/-- The markup of the latest-issue card (script.js 91-139), for the value
`isUserPremium` of the module-level flag. -/
def latestIssueHtml (pg : Page) (isUserPremium : Bool) (issue : Issue) : JSString :=
  cardHeader pg issue ++
  (if isUserPremium then premiumBlock issue else premiumLock) ++
  cardFooter issue

/-- Embedding of `displayLatestIssue` (script.js 80-140): the new `innerHTML` of
`#latest-issue-card`, or `none` when the page has no such element and nothing is
rendered. -/
def displayLatestIssue (pg : Page) (isUserPremium : Bool) (issue : Issue) : Option JSString :=
  if pg.latestIssueCard then some (latestIssueHtml pg isUserPremium issue) else none

/-! ## script.js: newsletter form -/

/-- The classes of code units that the regular expression of `isValidEmail` tells apart. -/
inductive EmailChar where
  | at
  | dot
  | space
  | other
deriving DecidableEq, Repr

/-- The class of a code unit: `@`, `.`, a character of `\s`, or anything else. -/
def classify (c : Nat) : EmailChar :=
  if c = 64 then EmailChar.at
  else if c = 46 then EmailChar.dot
  else if isWhiteSpace c then EmailChar.space
  else EmailChar.other

/-- The class `[^\s@]`. -/
def notSpaceAt : RegularExpression EmailChar :=
  RegularExpression.char EmailChar.dot + RegularExpression.char EmailChar.other

/-- The regular expression `/^[^\s@]+@[^\s@]+\.[^\s@]+$/` of script.js 257, on the classes. -/
def emailRegex : RegularExpression EmailChar :=
  notSpaceAt * RegularExpression.star notSpaceAt * RegularExpression.char EmailChar.at *
    (notSpaceAt * RegularExpression.star notSpaceAt) * RegularExpression.char EmailChar.dot *
    (notSpaceAt * RegularExpression.star notSpaceAt)

/-- Embedding of `isValidEmail` (script.js 256-259): `emailRegex.test(email)`. -/
def isValidEmail (email : JSString) : Bool :=
  emailRegex.rmatch (email.map classify)

/-- Observable side effects of the newsletter form; `subscribe email` is the call
`subscribeToNewsletter(email)`. -/
inductive NewsletterEffect where
  | preventDefault
  | alert (msg : JSString)
  | subscribe (email : JSString)
  | clearNewsletterEmail
deriving DecidableEq, Repr

/-- Embedding of `subscribeToNewsletter` (script.js 218-233), which only simulates the
subscription; `hasNewsletterEmail` tells whether `#newsletter-email` exists. -/
def subscribeToNewsletter (hasNewsletterEmail : Bool) (_email : JSString) :
    List NewsletterEffect :=
  NewsletterEffect.alert
      (js "Thank you for subscribing! You'll receive our latest updates soon.") ::
    (if hasNewsletterEmail then [NewsletterEffect.clearNewsletterEmail] else [])

/-- Embedding of `handleNewsletterSubmit` (script.js 236-253); `value` is the text of the
email field of the submitted form. -/
def handleNewsletterSubmit (hasNewsletterEmail : Bool) (value : JSString) :
    List NewsletterEffect :=
  NewsletterEffect.preventDefault ::
  if trim value = [] then
    [NewsletterEffect.alert (js "Please enter a valid email address.")]
  else if isValidEmail (trim value) = false then
    [NewsletterEffect.alert (js "Please enter a valid email address.")]
  else
    NewsletterEffect.subscribe (trim value) ::
      subscribeToNewsletter hasNewsletterEmail (trim value)

/-! ## script.js: debounce, with the timers of the browser as explicit state

Time is counted in milliseconds.  A timer runs exactly when it is due, and a call at the
time `t` is handled after the timers that are due by `t`.  The function `func` is any
function that sets no timer; its calls are recorded. -/

/-- A timer set by `setTimeout(later, wait)` and not yet run: its id, the time at which it
is due, and the arguments that its closure `later` passes to `func`. -/
structure Timer (α : Type) where
  id : Nat
  due : Nat
  args : α
deriving DecidableEq, Repr

/-- The state of a function returned by `debounce(func, wait)` and of the timers of the
browser that it set: the clock in milliseconds, the variable `timeout` (`none` is
`undefined`), the pending timers in the order of their creation, the id of the next timer,
and the calls of `func` so far, each with its time and its arguments. -/
structure Debounced (α : Type) where
  wait : Nat
  now : Nat
  timeout : Option Nat
  pending : List (Timer α)
  nextId : Nat
  invoked : List (Nat × α)
deriving DecidableEq, Repr

/-- Embedding of `debounce(func, wait)` (script.js 194-204): the state of the returned
function before its first call. -/
def debounce {α : Type} (wait : Nat) : Debounced α :=
  { wait := wait, now := 0, timeout := none, pending := [], nextId := 1, invoked := [] }

/-- The call `clearTimeout(id)` on the pending timers. -/
def clearTimeout {α : Type} (id : Option Nat) (pending : List (Timer α)) : List (Timer α) :=
  pending.filter fun t => some t.id ≠ id

/-- The closure `later` (script.js 197-200) of a call with arguments `args`, run by its
timer: `clearTimeout(timeout)`, then `func(...args)`. -/
def later {α : Type} (args : α) (s : Debounced α) : Debounced α :=
  { s with
    pending := clearTimeout s.timeout s.pending
    invoked := s.invoked ++ [(s.now, args)] }

/-- The body of `executedFunction` (script.js 196-203) for a call with arguments `args` at
the current time: `clearTimeout(timeout)`, then `timeout = setTimeout(later, wait)`. -/
def executedFunction {α : Type} (args : α) (s : Debounced α) : Debounced α :=
  { s with
    pending := clearTimeout s.timeout s.pending ++
      [{ id := s.nextId, due := s.now + s.wait, args := args }]
    timeout := some s.nextId
    nextId := s.nextId + 1 }

/-- The pending timer that is due first, the oldest one among equals. -/
def earliest {α : Type} : List (Timer α) → Option (Timer α)
  | [] => none
  | t :: ts =>
    match earliest ts with
    | some u => if u.due < t.due then some u else some t
    | none => some t

/-- The event loop up to the time `t`, with fuel: the timers due by `t` run in the order
of their due times, each at its due time. -/
def runTimersFuel {α : Type} : Nat → Nat → Debounced α → Debounced α
  | 0, t, s => { s with now := max s.now t }
  | fuel + 1, t, s =>
    match earliest s.pending with
    | some tm =>
      if tm.due ≤ t then
        runTimersFuel fuel t
          (later tm.args
            { s with
              now := max s.now tm.due
              pending := s.pending.filter fun u => u.id ≠ tm.id })
      else { s with now := max s.now t }
    | none => { s with now := max s.now t }

/-- The event loop up to the time `t`.  Running a timer removes it and sets none, so one
unit of fuel for each pending timer is enough. -/
def runTimers {α : Type} (t : Nat) (s : Debounced α) : Debounced α :=
  runTimersFuel s.pending.length t s

/-- A call of the debounced function at the time `call.1` with the arguments `call.2`. -/
def callAt {α : Type} (s : Debounced α) (call : Nat × α) : Debounced α :=
  executedFunction call.2 (runTimers call.1 s)

/-- A sequence of calls of the debounced function, in order. -/
def callsAt {α : Type} (calls : List (Nat × α)) (s : Debounced α) : Debounced α :=
  calls.foldl callAt s

/-- Each call arrives less than `wait` milliseconds after the previous one. -/
def rapid {α : Type} (wait : Nat) (calls : List (Nat × α)) : Prop :=
  calls.Chain' fun c d => c.1 ≤ d.1 ∧ d.1 < c.1 + wait

/-- The debounced handler of the search input (script.js 163-167):
`debounce(handleSearch, 300)`; the argument of a call is the text of the input. -/
def searchInputHandler : Debounced JSString :=
  debounce 300

/-- The state right after the call `c`, when nothing has been invoked: the clock is at the
time of the call and the one pending timer is the timer of that call. -/
def settled {α : Type} (w : Nat) (c : Nat × α) (s : Debounced α) : Prop :=
  s.wait = w ∧ s.now = c.1 ∧ s.invoked = [] ∧
    ∃ id, s.timeout = some id ∧ s.pending = [{ id := id, due := c.1 + w, args := c.2 }]

/-- A page that has the card; the date is the one the browser prints for the sample
issue in UTC. -/
def samplePage : Page :=
  { latestIssueCard := true
    toLocaleDateString := fun _ => js "Monday, January 1, 2024" }

/-- A published issue whose full content is the three letters `div`. -/
def sampleIssue : Issue :=
  { id := 1
    slug := js "issue-1"
    title := js "Hello"
    short_summary := js "News\n\nMore news"
    full_content := js "div"
    has_download := false
    download_url := none
    published_at := some { year := 2024, month := 1, day := 1, time := 0 } }

/-- The issues an envelope carries: the row or the rows of its `data`. -/
def Envelope.rows (e : Envelope) : List Issue :=
  match e.data with
  | some (Payload.issue i) => [i]
  | some (Payload.issues l) => l
  | _ => []

/-- An issue with the given id, title and date of publication. -/
def issueOf (id : Nat) (title : JSString) (published_at : Option Timestamp) : Issue :=
  { id := id
    slug := js "issue-" ++ decimal id
    title := title
    short_summary := js "Highlights"
    full_content := js "Body"
    has_download := false
    download_url := none
    published_at := published_at }

/-- Tables with a draft and two published issues, the later one published on the last day
of 2024 at 10:00 UTC. -/
def sampleTables : Tables :=
  { users := []
    issues :=
      [issueOf 1 (js "Typing news") (some { year := 2024, month := 6, day := 15, time := 0 }),
       issueOf 2 (js "Draft") none,
       issueOf 3 (js "Year in review")
         (some { year := 2024, month := 12, day := 31, time := 36000000000 })] }

/-- The error object of a failure. -/
def Fault.cause : Fault → JSError
  | Fault.error e => e
  | Fault.threw e => e

/-- The first failure among the remote calls that a member of `window.db` makes:
`getUserStats` makes two calls, `getUserReadingHistory` none, every other member one. -/
def DbCall.firstFault (call : DbCall) (faults : Faults) : Option Fault :=
  match call with
  | DbCall.getUserStats =>
    match faults 0 with
    | some f => some f
    | none => faults 1
  | DbCall.getUserReadingHistory _ => none
  | _ => faults 0

/-- The value that reports the failure `e` of a remote call: the envelope
`{ success: false, message: e.message }`, and the bare `false` for
`canAccessPremiumContent`. -/
def DbCall.failureResult (call : DbCall) (e : JSError) : DbResult :=
  match call with
  | DbCall.canAccessPremiumContent _ => DbResult.boolean false
  | _ => DbResult.envelope (failureOf e)

/-- The three mutations that return `{ success: true }` without a `data` key. -/
def DbCall.returnsNoData : DbCall → Bool
  | DbCall.updateUserPremiumStatus _ _ => true
  | DbCall.updateUserAdminStatus _ _ => true
  | DbCall.deleteIssue _ => true
  | _ => false

/-- A browser in January 2025, in the UTC time zone. -/
def sampleClock : Clock :=
  { thisMonth := 0
    thisYear := 2025
    getMonth := fun t => t.month - 1
    getFullYear := fun t => t.year }

/-- The record of reader number `n`. -/
def readerRow (n : Nat) (premium : Bool) : User :=
  { id := js "u-" ++ decimal n
    email := js "reader@example.com"
    is_premium := some premium
    is_admin := some false
    created_at := none }

/-- Tables with `total` users, the first `premium` of which are premium. -/
def readers (premium total : Nat) : Tables :=
  { issues := []
    users := (List.range total).map fun n => readerRow n (decide (n < premium)) }

/-- The conversion rate in the words of the specification: `premium / total` as a
percentage, rounded to the nearest integer with halves rounded up, and 0 for no user. -/
def roundedPercent (premium total : Nat) : Nat :=
  if total = 0 then 0 else (200 * premium + total) / (2 * total)

/-- A reader and the users table after an administrator made them premium. -/
def sampleReader : AuthUser :=
  { id := js "u-1", email := js "reader@example.com" }

/-- The record of the sample reader, with the premium flag set. -/
def sampleReaderRow : User :=
  { id := js "u-1"
    email := js "reader@example.com"
    is_premium := some true
    is_admin := some false
    created_at := some { year := 2024, month := 1, day := 1, time := 0 } }

/-- Tables with no user and no issue. -/
def emptyTables : Tables := { issues := [], users := [] }

/-- An environment in which no remote call fails. -/
def sampleLoginEnv : LoginEnv :=
  { faults := noFaults
    now := { year := 2024, month := 1, day := 1, time := 0 }
    authModal := true }

/-- A failure of the network: the request throws. -/
def networkDown : Faults :=
  fun _ => some (Fault.threw { message := js "Failed to fetch", code := [] })

/-- Both issues are published and `a` not earlier than `b`: the `published_at` of `a` is
greater than or equal to that of `b`. -/
def notEarlier (a b : Issue) : Prop :=
  match a.published_at, b.published_at with
  | some s, some t => t.le s = true
  | _, _ => False

/-- The sample issue with another full content. -/
def sampleIssueRewritten : Issue :=
  { sampleIssue with full_content := js "An entirely different body" }

/-- The data of an issue to publish. -/
def sampleIssueData : IssueData :=
  { slug := js "issue-4"
    title := js "Packaging"
    short_summary := js "Wheels"
    full_content := js "Body"
    has_download := false
    download_url := none
    published_at := some { year := 2025, month := 1, day := 6, time := 0 } }

/-- Remote call 0 is served; every later remote call would throw. -/
def laterCallsFail : Faults :=
  fun n => if n = 0 then none else some (Fault.threw { message := js "Failed to fetch", code := [] })

/-- The error of a lookup that row-level security refuses. -/
def permissionDenied : JSError :=
  { message := js "permission denied for table users", code := js "42501" }

/-- An environment in which the lookup of `handleUserLogin` returns `permissionDenied`. -/
def refusedLoginEnv : LoginEnv :=
  { faults := fun _ => some (Fault.error permissionDenied)
    now := { year := 2024, month := 1, day := 1, time := 0 }
    authModal := true }

/-! ## Theorems -/

theorem handleSignup_mismatch (remote : JSString → JSString → Response Unit)
    (email password confirmPassword : JSString) (h : password ≠ confirmPassword) :
    handleSignup remote email password confirmPassword =
      [AuthEffect.preventDefault, AuthEffect.alert (js "Passwords do not match")] := by
  simp [handleSignup, h]

theorem handleSignup_short (remote : JSString → JSString → Response Unit)
    (email password : JSString) (h : password.length < 6) :
    handleSignup remote email password password =
      [AuthEffect.preventDefault,
       AuthEffect.alert (js "Password must be at least 6 characters long")] := by
  simp [handleSignup, h]

theorem handleSignup_accepted (remote : JSString → JSString → Response Unit)
    (email password : JSString) (h : 6 ≤ password.length) :
    ∃ rest, handleSignup remote email password password =
      AuthEffect.preventDefault :: AuthEffect.signUp email password :: rest := by
  have h2 : ¬ password.length < 6 := by omega
  unfold handleSignup
  rw [if_neg (not_not.mpr rfl), if_neg h2]
  exact ⟨_, rfl⟩

/-- C1: a sign-up whose password has fewer than 6 code units or differs from the
confirmation is rejected with an alert and without any remote `signUp` call; the remote
call is made exactly when the password equals the confirmation and has at least 6
code units. -/
theorem handleSignup_validation (remote : JSString → JSString → Response Unit)
    (email password confirmPassword : JSString) :
    ((password.length < 6 ∨ password ≠ confirmPassword) →
        alerts (handleSignup remote email password confirmPassword) ∧
        ¬ callsSignUp (handleSignup remote email password confirmPassword)) ∧
    (callsSignUp (handleSignup remote email password confirmPassword) ↔
        password = confirmPassword ∧ 6 ≤ password.length) := by
  by_cases h1 : password = confirmPassword
  · subst h1
    by_cases h2 : password.length < 6
    · rw [handleSignup_short remote email password h2]
      have hno : ¬ callsSignUp [AuthEffect.preventDefault,
          AuthEffect.alert (js "Password must be at least 6 characters long")] := by
        rintro ⟨e, p, hm⟩
        simp at hm
      refine ⟨fun _ => ⟨⟨js "Password must be at least 6 characters long", by simp⟩, hno⟩, ?_⟩
      constructor
      · intro hc
        exact absurd hc hno
      · rintro ⟨_, h6⟩
        omega
    · have h6 : 6 ≤ password.length := by omega
      obtain ⟨rest, hrest⟩ := handleSignup_accepted remote email password h6
      rw [hrest]
      have hyes : callsSignUp
          (AuthEffect.preventDefault :: AuthEffect.signUp email password :: rest) :=
        ⟨email, password, by simp⟩
      refine ⟨?_, ?_⟩
      · rintro (h | h)
        · omega
        · exact absurd rfl h
      · exact ⟨fun _ => ⟨rfl, h6⟩, fun _ => hyes⟩
  · rw [handleSignup_mismatch remote email password confirmPassword h1]
    have hno : ¬ callsSignUp [AuthEffect.preventDefault,
        AuthEffect.alert (js "Passwords do not match")] := by
      rintro ⟨e, p, hm⟩
      simp at hm
    refine ⟨fun _ => ⟨⟨js "Passwords do not match", by simp⟩, hno⟩, ?_⟩
    constructor
    · intro hc
      exact absurd hc hno
    · rintro ⟨heq, _⟩
      exact absurd heq h1

/-- Witness for C1: the password `abc` with confirmation `abc` is rejected. -/
theorem handleSignup_validation_witness :
    alerts (handleSignup (fun _ _ => Response.data ()) (js "a@b.c") (js "abc") (js "abc")) ∧
    ¬ callsSignUp
        (handleSignup (fun _ _ => Response.data ()) (js "a@b.c") (js "abc") (js "abc")) :=
  (handleSignup_validation (fun _ _ => Response.data ()) (js "a@b.c") (js "abc")
    (js "abc")).1 (Or.inl (by decide))

/-- Counterexample to C2 as stated: the full content `div` of the sample issue is a
substring of itself and occurs in the card rendered for a viewer who is not premium. -/
theorem displayLatestIssue_locked_includes_substring :
    ∃ html, displayLatestIssue samplePage false sampleIssue = some html ∧
      js "div" <:+: sampleIssue.full_content ∧ includes html (js "div") := by
  refine ⟨latestIssueHtml samplePage false sampleIssue, rfl, by decide, ?_⟩
  unfold includes
  decide

/-- C2 (amended): for a viewer who is not premium the card does not depend on the full
content: it is the card of the same issue with the full content emptied; so whatever
substring of the full content occurs in the card occurs in the card of the emptied
issue as well, where it comes from the template or from another field. -/
theorem displayLatestIssue_locked_ignores_content (pg : Page) (issue : Issue) :
    displayLatestIssue pg false issue =
      displayLatestIssue pg false { issue with full_content := [] } ∧
    ∀ html s, displayLatestIssue pg false issue = some html →
      s <:+: issue.full_content → includes html s →
      ∃ html0, displayLatestIssue pg false { issue with full_content := [] } = some html0 ∧
        includes html0 s :=
  ⟨rfl, fun html _ h _ hs => ⟨html, h, hs⟩⟩

/-- Witness for C2: the substring `div` of the sample issue occurs in the locked card, and
in the locked card of the emptied issue. -/
theorem displayLatestIssue_locked_ignores_content_witness :
    ∃ html0, displayLatestIssue samplePage false { sampleIssue with full_content := [] } =
        some html0 ∧ includes html0 (js "div") :=
  (displayLatestIssue_locked_ignores_content samplePage sampleIssue).2
    (latestIssueHtml samplePage false sampleIssue) (js "div") rfl (by decide)
    (by unfold includes; decide)

theorem substring_zero (s : JSString) (n : Nat) : substring s 0 n = s.take n := by
  simp [substring]

theorem contentPreview_eq (fc : JSString) :
    contentPreview fc = if fc.length ≤ 400 then fc else fc.take 400 ++ js "..." := by
  unfold contentPreview
  rw [substring_zero]
  by_cases h : fc.length ≤ 400
  · have h2 : ¬ fc.length > 400 := by omega
    simp [h, h2, List.take_of_length_le h]
  · have h2 : fc.length > 400 := by omega
    simp [h, h2]

/-- C6: for a premium viewer the card is `pre ++ preview ++ post`, where `pre` ends with
the opening of the `content-preview` element, `post` starts with its closing tag, neither
depends on the full content, and the preview is the whole full content when it has at
most 400 code units and otherwise its first 400 code units followed by `...`. -/
theorem displayLatestIssue_premium_preview (pg : Page) (issue : Issue) :
    ∃ pre post : JSString,
      js "<div class=\"content-preview\">\n                    " <:+ pre ∧
      js "\n                </div>" <+: post ∧
      ∀ fc : JSString,
        displayLatestIssue pg true { issue with full_content := fc } =
          if pg.latestIssueCard then
            some (pre ++ (if fc.length ≤ 400 then fc else fc.take 400 ++ js "...") ++ post)
          else none := by
  refine ⟨cardHeader pg issue ++ previewOpen, premiumActions issue ++ cardFooter issue,
    ?_, ?_, ?_⟩
  · exact List.IsSuffix.trans (by decide : _ <:+ previewOpen) (List.suffix_append _ _)
  · unfold premiumActions
    simp only [List.append_assoc]
    exact List.prefix_append _ _
  · intro fc
    unfold displayLatestIssue latestIssueHtml premiumBlock
    rw [contentPreview_eq]
    simp only [List.append_assoc, if_true]
    rfl

theorem respond_single_eq_data (faults : Faults) (db : Tables) (u : AuthUser) (row : User) :
    respond (faults 0) (single (usersById db u.id)) = Response.data row ↔
      lookupSucceeds faults db u row := by
  unfold lookupSucceeds usersById
  cases hf : faults 0 with
  | some f => cases f <;> simp [respond]
  | none =>
    cases hl : (db.users.filter fun r => r.id = u.id) with
    | nil => simp [respond, single, hl]
    | cons a t =>
      cases t with
      | nil => simp [respond, single, hl]
      | cons b t2 => simp [respond, single, hl]

theorem orFalse_eq_true (b : Option Bool) : orFalse b = true ↔ b = some true := by
  cases b with
  | none => simp [orFalse]
  | some v => cases v <;> simp [orFalse]

theorem lookup_flag_eq_true (faults : Faults) (db : Tables) (u : AuthUser)
    (flag : User → Option Bool) :
    (match respond (faults 0) (single (usersById db u.id)) with
      | Response.data userData => orFalse (flag userData)
      | Response.error _ => false
      | Response.threw _ => false) = true ↔
    ∃ row, lookupSucceeds faults db u row ∧ flag row = some true := by
  cases h : respond (faults 0) (single (usersById db u.id)) with
  | data row =>
    have hrow := (respond_single_eq_data faults db u row).1 h
    simp only [orFalse_eq_true]
    constructor
    · intro hp
      exact ⟨row, hrow, hp⟩
    · rintro ⟨row2, h2, hp⟩
      have h3 := (respond_single_eq_data faults db u row2).2 h2
      rw [h] at h3
      cases h3
      exact hp
  | error e =>
    simp only [Bool.false_eq_true, false_iff, not_exists, not_and]
    intro row h2
    have h3 := (respond_single_eq_data faults db u row).2 h2
    rw [h] at h3
    cases h3
  | threw e =>
    simp only [Bool.false_eq_true, false_iff, not_exists, not_and]
    intro row h2
    have h3 := (respond_single_eq_data faults db u row).2 h2
    rw [h] at h3
    cases h3

theorem some_user_exists (u : AuthUser) (p : AuthUser → User → Prop) :
    (∃ v row, some u = some v ∧ p v row) ↔ ∃ row, p u row := by
  constructor
  · rintro ⟨v, row, hv, hp⟩
    cases hv
    exact ⟨row, hp⟩
  · rintro ⟨row, hp⟩
    exact ⟨u, row, rfl, hp⟩

theorem isUserPremium_eq_true (faults : Faults) (db : Tables) (cu : Option AuthUser) :
    isUserPremium faults db cu = true ↔
      ∃ u row, cu = some u ∧ lookupSucceeds faults db u row ∧ row.is_premium = some true := by
  cases cu with
  | none => simp [isUserPremium]
  | some u =>
    rw [some_user_exists u fun v row =>
      lookupSucceeds faults db v row ∧ row.is_premium = some true]
    exact lookup_flag_eq_true faults db u fun r => r.is_premium

theorem isUserAdmin_eq_true (faults : Faults) (db : Tables) (cu : Option AuthUser) :
    isUserAdmin faults db cu = true ↔
      ∃ u row, cu = some u ∧ lookupSucceeds faults db u row ∧ row.is_admin = some true := by
  cases cu with
  | none => simp [isUserAdmin]
  | some u =>
    rw [some_user_exists u fun v row =>
      lookupSucceeds faults db v row ∧ row.is_admin = some true]
    exact lookup_flag_eq_true faults db u fun r => r.is_admin

theorem checkPremiumStatus_eq_true (faults : Faults) (db : Tables) (cu : Option AuthUser)
    (flag : Bool) :
    (checkPremiumStatus faults db cu flag).1 = true ↔
      ∃ u row, cu = some u ∧ lookupSucceeds faults db u row ∧ row.is_premium = some true := by
  cases cu with
  | none => simp [checkPremiumStatus]
  | some u =>
    rw [some_user_exists u fun v row =>
      lookupSucceeds faults db v row ∧ row.is_premium = some true,
      ← lookup_flag_eq_true faults db u fun r => r.is_premium]
    simp only [checkPremiumStatus]
    cases respond (faults 0) (single (usersById db u.id)) <;> rfl

theorem checkPremiumStatus_flag (faults : Faults) (db : Tables) (cu : Option AuthUser) :
    (checkPremiumStatus faults db cu false).2 = (checkPremiumStatus faults db cu false).1 := by
  cases cu with
  | none => rfl
  | some u =>
    simp only [checkPremiumStatus]
    cases respond (faults 0) (single (usersById db u.id)) <;> rfl

/-- C3: `isUserPremium`, `isUserAdmin` and `checkPremiumStatus` fail closed.  Without a
current user they return `false`; with a current user whose lookup does not succeed (the
request fails, by a returned error or a throw, or does not select exactly one record) they
return `false`; and each returns `true` exactly when the lookup succeeds and the stored
flag of the record is `true`.  Starting from its initial value `false`, the flag that
`checkPremiumStatus` maintains for the rendering equals the value returned. -/
theorem premium_admin_checks_fail_closed (faults : Faults) (db : Tables)
    (currentUser : Option AuthUser) (flag : Bool) :
    (currentUser = none →
      isUserPremium faults db currentUser = false ∧
      isUserAdmin faults db currentUser = false ∧
      (checkPremiumStatus faults db currentUser flag).1 = false) ∧
    (∀ u, currentUser = some u → (∀ row, ¬ lookupSucceeds faults db u row) →
      isUserPremium faults db currentUser = false ∧
      isUserAdmin faults db currentUser = false ∧
      (checkPremiumStatus faults db currentUser flag).1 = false) ∧
    (isUserPremium faults db currentUser = true ↔
      ∃ u row, currentUser = some u ∧ lookupSucceeds faults db u row ∧
        row.is_premium = some true) ∧
    (isUserAdmin faults db currentUser = true ↔
      ∃ u row, currentUser = some u ∧ lookupSucceeds faults db u row ∧
        row.is_admin = some true) ∧
    ((checkPremiumStatus faults db currentUser flag).1 = true ↔
      ∃ u row, currentUser = some u ∧ lookupSucceeds faults db u row ∧
        row.is_premium = some true) ∧
    (checkPremiumStatus faults db currentUser false).2 =
      (checkPremiumStatus faults db currentUser false).1 := by
  refine ⟨?_, ?_, isUserPremium_eq_true faults db currentUser,
    isUserAdmin_eq_true faults db currentUser,
    checkPremiumStatus_eq_true faults db currentUser flag,
    checkPremiumStatus_flag faults db currentUser⟩
  · intro h
    subst h
    exact ⟨rfl, rfl, rfl⟩
  · intro u hu hfail
    have hno : ∀ p : User → Prop,
        ¬ ∃ v row, currentUser = some v ∧ lookupSucceeds faults db v row ∧ p row := by
      rintro p ⟨v, row, hv, hl, _⟩
      rw [hu] at hv
      cases hv
      exact hfail row hl
    refine ⟨?_, ?_, ?_⟩
    · rw [← Bool.not_eq_true, isUserPremium_eq_true]
      exact hno _
    · rw [← Bool.not_eq_true, isUserAdmin_eq_true]
      exact hno _
    · rw [← Bool.not_eq_true, checkPremiumStatus_eq_true]
      exact hno _

/-- Witness for C3: with the network down, the checks answer `false` for the sample
reader although the stored premium flag is `true`. -/
theorem premium_admin_checks_fail_closed_witness :
    isUserPremium networkDown { issues := [], users := [sampleReaderRow] }
        (some sampleReader) = false ∧
    isUserAdmin networkDown { issues := [], users := [sampleReaderRow] }
        (some sampleReader) = false ∧
    (checkPremiumStatus networkDown { issues := [], users := [sampleReaderRow] }
        (some sampleReader) false).1 = false :=
  (premium_admin_checks_fail_closed networkDown { issues := [], users := [sampleReaderRow] }
    (some sampleReader) false).2.1 sampleReader rfl
    (fun _ h => absurd h.1 (by simp [networkDown]))

theorem handleUserLogin_existing (env : LoginEnv) (db : Tables) (u : AuthUser) (row : User)
    (hone : (db.users.filter fun r => r.id = u.id) = [row])
    (ht : Fault.transient (env.faults 0)) :
    (handleUserLogin env db u).1 = db := by
  unfold handleUserLogin
  cases hf : env.faults 0 with
  | none => simp [respond, single, usersById, hone]
  | some f =>
    cases f with
    | error e =>
      rw [hf] at ht
      have hc : e.code ≠ js "PGRST116" := ht
      simp [respond, hc]
    | threw e => simp [respond]

theorem signIns_existing (u : AuthUser) (row : User) (envs : List LoginEnv) (db : Tables)
    (hone : (db.users.filter fun r => r.id = u.id) = [row])
    (ht : ∀ e ∈ envs, Fault.transient (e.faults 0)) :
    signIns u envs db = db := by
  induction envs with
  | nil => rfl
  | cons e es ih =>
    have h1 : (handleUserLogin e db u).1 = db :=
      handleUserLogin_existing e db u row hone (ht e (List.mem_cons_self e es))
    have h2 : signIns u (e :: es) db = signIns u es (handleUserLogin e db u).1 := rfl
    rw [h2, h1]
    exact ih fun e2 he2 => ht e2 (List.mem_cons_of_mem e he2)

theorem handleUserLogin_first (env : LoginEnv) (db : Tables) (u : AuthUser)
    (hnew : ∀ r ∈ db.users, r.id ≠ u.id)
    (hok : env.faults 0 = none ∧ env.faults 1 = none) :
    (handleUserLogin env db u).1 =
      { db with users := db.users ++ [newUserRecord env u] } := by
  have hfilter : (db.users.filter fun r => r.id = u.id) = [] := by
    rw [List.filter_eq_nil_iff]
    intro r hr
    simpa using hnew r hr
  unfold handleUserLogin
  simp [respond, single, usersById, hfilter, hok.1, hok.2, notFound, createUserRecord]

/-- C4: with the users table as explicit state, for an identity `u` that has no record,
the first sign-in handled without a remote failure appends one record, so that the table
holds exactly one record keyed by `u.id`, with `is_premium = false`, `is_admin = false` and
the email of `u`; every further sequence of sign-ins of `u` leaves the tables unchanged,
and so does any sequence of sign-ins from tables in which `u` has exactly one record,
whatever its flags (the lookups of the further sign-ins may fail, with any error other than
the not-found answer). -/
theorem handleUserLogin_creates_once (env : LoginEnv) (db : Tables) (u : AuthUser)
    (envs : List LoginEnv)
    (hnew : ∀ r ∈ db.users, r.id ≠ u.id)
    (hok : env.faults 0 = none ∧ env.faults 1 = none)
    (hlater : ∀ e ∈ envs, Fault.transient (e.faults 0)) :
    (handleUserLogin env db u).1.users =
      db.users ++ [{ id := u.id, email := u.email, is_premium := some false,
                     is_admin := some false, created_at := some env.now }] ∧
    (handleUserLogin env db u).1.issues = db.issues ∧
    ((handleUserLogin env db u).1.users.filter fun r => r.id = u.id) =
      [{ id := u.id, email := u.email, is_premium := some false,
         is_admin := some false, created_at := some env.now }] ∧
    signIns u envs (handleUserLogin env db u).1 = (handleUserLogin env db u).1 ∧
    (∀ (db2 : Tables) (row : User), (db2.users.filter fun r => r.id = u.id) = [row] →
      signIns u envs db2 = db2) := by
  have hfirst := handleUserLogin_first env db u hnew hok
  have hfilter : (db.users.filter fun r => r.id = u.id) = [] := by
    rw [List.filter_eq_nil_iff]
    intro r hr
    simpa using hnew r hr
  have hone : ((handleUserLogin env db u).1.users.filter fun r => r.id = u.id) =
      [newUserRecord env u] := by
    rw [hfirst]
    simp [List.filter_append, hfilter, newUserRecord]
  refine ⟨?_, ?_, hone, ?_, ?_⟩
  · rw [hfirst]
    rfl
  · rw [hfirst]
  · exact signIns_existing u _ envs _ hone hlater
  · intro db2 row h2
    exact signIns_existing u row envs db2 h2 hlater

/-- Witness for C4: the sample reader signs in to empty tables, then twice more. -/
theorem handleUserLogin_creates_once_witness :
    (handleUserLogin sampleLoginEnv emptyTables sampleReader).1.users =
      [{ id := js "u-1", email := js "reader@example.com", is_premium := some false,
         is_admin := some false,
         created_at := some { year := 2024, month := 1, day := 1, time := 0 } }] ∧
    signIns sampleReader [sampleLoginEnv, sampleLoginEnv]
        (handleUserLogin sampleLoginEnv emptyTables sampleReader).1 =
      (handleUserLogin sampleLoginEnv emptyTables sampleReader).1 :=
  have h := handleUserLogin_creates_once sampleLoginEnv emptyTables sampleReader
    [sampleLoginEnv, sampleLoginEnv]
    (fun _ hr => absurd hr (List.not_mem_nil _))
    ⟨rfl, rfl⟩
    (fun e he => by
      have hnone : e.faults 0 = none := by
        simp only [List.mem_cons, List.mem_singleton, or_self, List.not_mem_nil, or_false] at he
        rw [he]
        rfl
      rw [hnone]
      trivial)
  ⟨h.1, h.2.2.2.1⟩

theorem respond_eq_data {α : Type} (fault : Option Fault) (answer : Except JSError α)
    (d : α) (h : respond fault answer = Response.data d) :
    fault = none ∧ answer = Except.ok d := by
  cases fault with
  | some f => cases f <;> simp [respond] at h
  | none =>
    cases answer with
    | error e => simp [respond] at h
    | ok v =>
      simp only [respond, Response.data.injEq] at h
      rw [h]
      exact ⟨rfl, rfl⟩

theorem single_eq_ok {α : Type} (rows : Except JSError (List α)) (r : α)
    (h : single rows = Except.ok r) : rows = Except.ok [r] := by
  cases rows with
  | error e => simp [single] at h
  | ok l =>
    cases l with
    | nil => simp [single] at h
    | cons a t =>
      cases t with
      | nil =>
        simp only [single, Except.ok.injEq] at h
        rw [h]
      | cons b t2 => simp [single] at h

theorem except_map_eq_ok {α β : Type} (f : α → β) (x : Except JSError α) (b : β)
    (h : x.map f = Except.ok b) : ∃ a, x = Except.ok a ∧ f a = b := by
  cases x with
  | error e => simp [Except.map] at h
  | ok a =>
    simp only [Except.map, Except.ok.injEq] at h
    exact ⟨a, rfl, h⟩

theorem envelopeOf_rows {α : Type} (r : Response α) (onData : α → Envelope) (i : Issue)
    (h : i ∈ (envelopeOf r onData).rows) : ∃ d, r = Response.data d ∧ i ∈ (onData d).rows := by
  cases r with
  | data d => exact ⟨d, rfl, h⟩
  | error e => simp [envelopeOf, failureOf, Envelope.rows] at h
  | threw e => simp [envelopeOf, failureOf, Envelope.rows] at h

theorem compileFilters_of_mem (fs : List Filter) (f : Filter) (p : Issue → Bool)
    (hp : compileFilters fs = Except.ok p) (hf : f ∈ fs) :
    ∃ q, compileFilter f = Except.ok q ∧ ∀ i, p i = true → q i = true := by
  induction fs generalizing p with
  | nil => cases hf
  | cons g gs ih =>
    unfold compileFilters at hp
    cases hg : compileFilter g with
    | error e => simp [hg] at hp
    | ok pg =>
      cases hgs : compileFilters gs with
      | error e => simp [hg, hgs] at hp
      | ok pgs =>
        simp only [hg, hgs, Except.ok.injEq] at hp
        subst hp
        rcases List.mem_cons.1 hf with h | h
        · subst h
          exact ⟨pg, hg, fun i hi => by simp at hi; exact hi.1⟩
        · obtain ⟨q, hq, hqi⟩ := ih pgs hgs h
          exact ⟨q, hq, fun i hi => hqi i (by simp at hi; exact hi.2)⟩

theorem issueColumn_published_at :
    issueColumn (js "published_at") =
      some (SqlType.timestamptz, fun i =>
        match i.published_at with
        | some t => Value.timestamptz t
        | none => Value.null) := by
  rfl

theorem notIsNull_published_at (q : Issue → Bool) (i : Issue)
    (hq : compileFilter (Filter.notIsNull (js "published_at")) = Except.ok q)
    (hi : q i = true) : i.published_at ≠ none := by
  simp only [compileFilter, issueColumn_published_at, Except.ok.injEq] at hq
  subst hq
  intro hnone
  simp [hnone] at hi

theorem selectIssues_published (db : Tables) (fs : List Filter) (rows : List Issue)
    (hmem : Filter.notIsNull (js "published_at") ∈ fs)
    (h : selectIssues db fs = Except.ok rows) (i : Issue) (hi : i ∈ rows) :
    i.published_at ≠ none ∧ i ∈ db.issues := by
  obtain ⟨p, hp, hrows⟩ := except_map_eq_ok _ _ _ h
  subst hrows
  obtain ⟨hi1, hi2⟩ := List.mem_filter.1 hi
  obtain ⟨q, hq, hqi⟩ := compileFilters_of_mem fs _ p hp hmem
  exact ⟨notIsNull_published_at q i hq (hqi i hi2), hi1⟩

theorem mem_orderByPublishedAtDesc (rows : List Issue) (i : Issue) :
    i ∈ orderByPublishedAtDesc rows ↔ i ∈ rows :=
  (List.perm_insertionSort publishedAtDesc rows).mem_iff

theorem ordered_listing_published (faults : Faults) (db : Tables) (fs : List Filter)
    (hmem : Filter.notIsNull (js "published_at") ∈ fs) (i : Issue)
    (h : i ∈ (envelopeOf
      (respond (faults 0) ((selectIssues db fs).map orderByPublishedAtDesc))
      fun issues => successWith (Payload.issues issues)).rows) :
    i.published_at ≠ none ∧ i ∈ db.issues := by
  obtain ⟨d, hd, hid⟩ := envelopeOf_rows _ _ i h
  obtain ⟨_, hans⟩ := respond_eq_data _ _ _ hd
  obtain ⟨rows, hrows, hsorted⟩ := except_map_eq_ok _ _ _ hans
  subst hsorted
  have hi2 : i ∈ orderByPublishedAtDesc rows := hid
  exact selectIssues_published db fs rows hmem hrows i
    ((mem_orderByPublishedAtDesc rows i).1 hi2)

theorem getLatestIssue_published (faults : Faults) (db : Tables) (i : Issue)
    (h : i ∈ (getLatestIssue faults db).rows) : i.published_at ≠ none ∧ i ∈ db.issues := by
  obtain ⟨d, hd, hid⟩ := envelopeOf_rows _ _ i h
  obtain ⟨_, hans⟩ := respond_eq_data _ _ _ hd
  obtain ⟨rows, hrows, htake⟩ := except_map_eq_ok _ _ _ (single_eq_ok _ _ hans)
  have hi1 : i = d := by
    simpa [successWith, Envelope.rows] using hid
  subst hi1
  have hi2 : i ∈ (orderByPublishedAtDesc rows).take 1 := by
    rw [htake]
    exact List.mem_singleton_self i
  exact selectIssues_published db _ rows (List.mem_singleton_self _) hrows i
    ((mem_orderByPublishedAtDesc rows i).1 (List.mem_of_mem_take hi2))

/-- C5: whatever the issues table holds and whether or not the request fails, every issue
that `getLatestIssue`, `getAllIssues`, `getIssuesByYear` or `searchIssues` returns is a row
of the table whose `published_at` is not null. -/
theorem listings_exclude_drafts (faults : Faults) (db : Tables) (year : Nat)
    (query : JSString) (i : Issue)
    (h : i ∈ (getLatestIssue faults db).rows ∨ i ∈ (getAllIssues faults db).rows ∨
      i ∈ (getIssuesByYear faults db year).rows ∨ i ∈ (searchIssues faults db query).rows) :
    i.published_at ≠ none ∧ i ∈ db.issues := by
  rcases h with h | h | h | h
  · exact getLatestIssue_published faults db i h
  · exact ordered_listing_published faults db _ (List.mem_singleton_self _) i h
  · exact ordered_listing_published faults db _ (by simp) i h
  · exact ordered_listing_published faults db _ (by simp) i h

/-- Witness for C5: the issue of June 2024 is listed by `getAllIssues` on the sample
tables, which also hold a draft. -/
theorem listings_exclude_drafts_witness :
    (issueOf 1 (js "Typing news")
        (some { year := 2024, month := 6, day := 15, time := 0 })).published_at ≠ none ∧
    issueOf 1 (js "Typing news") (some { year := 2024, month := 6, day := 15, time := 0 }) ∈
      sampleTables.issues :=
  listings_exclude_drafts noFaults sampleTables 2024 (js "news")
    (issueOf 1 (js "Typing news") (some { year := 2024, month := 6, day := 15, time := 0 }))
    (Or.inr (Or.inl (by decide)))

/-- C7 (the code at the failing input): for the year 2024 and the sample tables,
`getIssuesByYear` returns the issue of 15 June only; the issue published on 31 December
2024 at 10:00 UTC is a published issue of the table and is not returned, because the
upper bound `2024-12-31` is the midnight that begins that day. -/
theorem getIssuesByYear_misses_last_day :
    getIssuesByYear noFaults sampleTables 2024 =
      successWith (Payload.issues
        [issueOf 1 (js "Typing news")
          (some { year := 2024, month := 6, day := 15, time := 0 })]) ∧
    issueOf 3 (js "Year in review")
        (some { year := 2024, month := 12, day := 31, time := 36000000000 }) ∈
      sampleTables.issues := by
  constructor
  · rfl
  · decide

theorem envelopeOf_fault {α : Type} (f : Fault) (answer : Except JSError α)
    (onData : α → Envelope) :
    envelopeOf (respond (some f) answer) onData = failureOf f.cause := by
  cases f <;> rfl

theorem envelopeOf_shape {α : Type} (r : Response α) (onData : α → Envelope)
    (h : ∀ d, (onData d).success = false ∧ (onData d).data = none ∧
          (onData d).message ≠ none ∨
        (onData d).success = true ∧ (onData d).message = none ∧ (onData d).data ≠ none) :
    (envelopeOf r onData).success = false ∧ (envelopeOf r onData).data = none ∧
        (envelopeOf r onData).message ≠ none ∨
      (envelopeOf r onData).success = true ∧ (envelopeOf r onData).message = none ∧
        (envelopeOf r onData).data ≠ none := by
  cases r with
  | data d => exact h d
  | error e => exact Or.inl ⟨rfl, rfl, by simp [envelopeOf, failureOf]⟩
  | threw e => exact Or.inl ⟨rfl, rfl, by simp [envelopeOf, failureOf]⟩

theorem successWith_shape (d : Payload) :
    (successWith d).success = false ∧ (successWith d).data = none ∧
        (successWith d).message ≠ none ∨
      (successWith d).success = true ∧ (successWith d).message = none ∧
        (successWith d).data ≠ none :=
  Or.inr ⟨rfl, rfl, by simp [successWith]⟩

theorem window_db_fault (call : DbCall) (faults : Faults) (clock : Clock) (db : Tables)
    (f : Fault) (hf : call.firstFault faults = some f) :
    (window.db call faults clock db).1 = db ∧
    (window.db call faults clock db).2 = call.failureResult f.cause := by
  cases call with
  | getLatestIssue =>
    have h0 : faults 0 = some f := hf
    simp only [window.db, getLatestIssue, h0, envelopeOf_fault, DbCall.failureResult, and_self]
  | getAllIssues =>
    have h0 : faults 0 = some f := hf
    simp only [window.db, getAllIssues, h0, envelopeOf_fault, DbCall.failureResult, and_self]
  | getIssueBySlug slug =>
    have h0 : faults 0 = some f := hf
    simp only [window.db, getIssueBySlug, h0, envelopeOf_fault, DbCall.failureResult, and_self]
  | getIssuesByYear year =>
    have h0 : faults 0 = some f := hf
    simp only [window.db, getIssuesByYear, h0, envelopeOf_fault, DbCall.failureResult, and_self]
  | searchIssues query =>
    have h0 : faults 0 = some f := hf
    simp only [window.db, searchIssues, h0, envelopeOf_fault, DbCall.failureResult, and_self]
  | getUserData userId =>
    have h0 : faults 0 = some f := hf
    simp only [window.db, getUserData, h0, envelopeOf_fault, DbCall.failureResult, and_self]
  | updateUserPremiumStatus userId isPremium =>
    have h0 : faults 0 = some f := hf
    cases f <;> simp [window.db, updateUserPremiumStatus, h0, respond, Fault.cause, DbCall.failureResult]
  | updateUserAdminStatus userId isAdmin =>
    have h0 : faults 0 = some f := hf
    cases f <;> simp [window.db, updateUserAdminStatus, h0, respond, Fault.cause, DbCall.failureResult]
  | getAllUsers =>
    have h0 : faults 0 = some f := hf
    simp only [window.db, getAllUsers, h0, envelopeOf_fault, DbCall.failureResult, and_self]
  | createIssue issueData =>
    have h0 : faults 0 = some f := hf
    cases f <;> simp [window.db, createIssue, h0, respond, Fault.cause, DbCall.failureResult]
  | updateIssue issueId issueData =>
    have h0 : faults 0 = some f := hf
    cases f <;> simp [window.db, updateIssue, h0, respond, Fault.cause, DbCall.failureResult]
  | deleteIssue issueId =>
    have h0 : faults 0 = some f := hf
    cases f <;> simp [window.db, deleteIssue, h0, respond, Fault.cause, DbCall.failureResult]
  | getUserStats =>
    simp only [DbCall.firstFault] at hf
    cases h0 : faults 0 with
    | some g =>
      rw [h0] at hf
      cases hf
      simp only [window.db, getUserStats, h0, envelopeOf_fault, DbCall.failureResult, and_self]
    | none =>
      rw [h0] at hf
      have h1 : faults 1 = some f := hf
      cases f <;> simp [window.db, getUserStats, h0, h1, respond, envelopeOf, Fault.cause, DbCall.failureResult]
  | getIssueStats =>
    have h0 : faults 0 = some f := hf
    simp only [window.db, getIssueStats, h0, envelopeOf_fault, DbCall.failureResult, and_self]
  | canAccessPremiumContent userId =>
    have h0 : faults 0 = some f := hf
    cases f <;> simp [window.db, canAccessPremiumContent, h0, respond, DbCall.failureResult]
  | getUserReadingHistory userId =>
    cases hf

theorem window_db_shape (call : DbCall) (faults : Faults) (clock : Clock) (db : Tables) :
    match (window.db call faults clock db).2 with
    | DbResult.boolean _ => ∃ userId, call = DbCall.canAccessPremiumContent userId
    | DbResult.envelope e =>
      (e.success = false ∧ e.data = none ∧ e.message ≠ none) ∨
      (e.success = true ∧ e.message = none ∧ (e.data = none ↔ call.returnsNoData = true)) := by
  have data_shape : ∀ e : Envelope,
      ((e.success = false ∧ e.data = none ∧ e.message ≠ none) ∨
        (e.success = true ∧ e.message = none ∧ e.data ≠ none)) →
      ((e.success = false ∧ e.data = none ∧ e.message ≠ none) ∨
        (e.success = true ∧ e.message = none ∧ (e.data = none ↔ false = true))) := by
    intro e h
    rcases h with h | ⟨h1, h2, h3⟩
    · exact Or.inl h
    · exact Or.inr ⟨h1, h2, by simp [h3]⟩
  have bare_shape : ∀ (r : Response Unit) (t : Tables),
      let e := (match r with
        | Response.data _ => (t, successBare)
        | Response.error e => (db, failureOf e)
        | Response.threw e => (db, failureOf e)).2
      ((e.success = false ∧ e.data = none ∧ e.message ≠ none) ∨
        (e.success = true ∧ e.message = none ∧ (e.data = none ↔ true = true))) := by
    intro r t
    cases r with
    | data d => exact Or.inr ⟨rfl, rfl, by simp [successBare]⟩
    | error e => exact Or.inl ⟨rfl, rfl, by simp [failureOf]⟩
    | threw e => exact Or.inl ⟨rfl, rfl, by simp [failureOf]⟩
  have row_shape : ∀ (r : Response Issue) (t : Issue → Tables),
      let e := (match r with
        | Response.data issue => (t issue, successWith (Payload.issue issue))
        | Response.error e => (db, failureOf e)
        | Response.threw e => (db, failureOf e)).2
      ((e.success = false ∧ e.data = none ∧ e.message ≠ none) ∨
        (e.success = true ∧ e.message = none ∧ (e.data = none ↔ false = true))) := by
    intro r t
    cases r with
    | data d => exact Or.inr ⟨rfl, rfl, by simp [successWith]⟩
    | error e => exact Or.inl ⟨rfl, rfl, by simp [failureOf]⟩
    | threw e => exact Or.inl ⟨rfl, rfl, by simp [failureOf]⟩
  cases call with
  | getLatestIssue =>
    exact data_shape _ (envelopeOf_shape _ _ fun d => successWith_shape _)
  | getAllIssues =>
    exact data_shape _ (envelopeOf_shape _ _ fun d => successWith_shape _)
  | getIssueBySlug slug =>
    exact data_shape _ (envelopeOf_shape _ _ fun d => successWith_shape _)
  | getIssuesByYear year =>
    exact data_shape _ (envelopeOf_shape _ _ fun d => successWith_shape _)
  | searchIssues query =>
    exact data_shape _ (envelopeOf_shape _ _ fun d => successWith_shape _)
  | getUserData userId =>
    exact data_shape _ (envelopeOf_shape _ _ fun d => successWith_shape _)
  | updateUserPremiumStatus userId isPremium => exact bare_shape _ _
  | updateUserAdminStatus userId isAdmin => exact bare_shape _ _
  | getAllUsers =>
    exact data_shape _ (envelopeOf_shape _ _ fun d => successWith_shape _)
  | createIssue issueData => exact row_shape _ _
  | updateIssue issueId issueData => exact row_shape _ _
  | deleteIssue issueId => exact bare_shape _ _
  | getUserStats =>
    exact data_shape _ (envelopeOf_shape _ _ fun d =>
      envelopeOf_shape _ _ fun d2 => successWith_shape _)
  | getIssueStats =>
    exact data_shape _ (envelopeOf_shape _ _ fun d => successWith_shape _)
  | canAccessPremiumContent userId => exact ⟨userId, rfl⟩
  | getUserReadingHistory userId => exact data_shape _ (successWith_shape _)

/-- Counterexample to C9 as stated: with the network down `canAccessPremiumContent`
returns the bare boolean `false`, not an envelope with a message; and a successful
`updateUserPremiumStatus` returns `{ success: true }` without `data`. -/
theorem window_db_not_always_envelope :
    (window.db (DbCall.canAccessPremiumContent (js "u-1")) networkDown sampleClock
        emptyTables).2 = DbResult.boolean false ∧
    (window.db (DbCall.updateUserPremiumStatus (js "u-1") true) noFaults sampleClock
        emptyTables).2 =
      DbResult.envelope { success := true, data := none, message := none } := by
  constructor <;> rfl

/-- C9 (amended): no member of `window.db` throws.  When a remote call of a member fails,
by a returned error or by a throw, the tables are unchanged and the member returns
`{ success: false, message }` with the message of the failure, except
`canAccessPremiumContent`, which returns the bare boolean `false`.  Every returned envelope
either has `success: false`, a message and no data, or has `success: true`, no message,
and a `data` key exactly when the member is not one of `updateUserPremiumStatus`,
`updateUserAdminStatus`, `deleteIssue`; only `canAccessPremiumContent` returns a
boolean. -/
theorem window_db_error_policy (call : DbCall) (faults : Faults) (clock : Clock)
    (db : Tables) :
    (∀ f, call.firstFault faults = some f →
      (window.db call faults clock db).1 = db ∧
      (window.db call faults clock db).2 = call.failureResult f.cause) ∧
    (match (window.db call faults clock db).2 with
      | DbResult.boolean _ => ∃ userId, call = DbCall.canAccessPremiumContent userId
      | DbResult.envelope e =>
        (e.success = false ∧ e.data = none ∧ e.message ≠ none) ∨
        (e.success = true ∧ e.message = none ∧
          (e.data = none ↔ call.returnsNoData = true))) :=
  ⟨fun f hf => window_db_fault call faults clock db f hf,
    window_db_shape call faults clock db⟩

/-- Witness for C9: with the network down `getLatestIssue` leaves the tables alone and
returns the failure envelope with the message of the thrown error. -/
theorem window_db_error_policy_witness :
    (window.db DbCall.getLatestIssue networkDown sampleClock sampleTables).1 = sampleTables ∧
    (window.db DbCall.getLatestIssue networkDown sampleClock sampleTables).2 =
      DbResult.envelope
        { success := false, data := none, message := some (js "Failed to fetch") } :=
  (window_db_error_policy DbCall.getLatestIssue networkDown sampleClock sampleTables).1
    (Fault.threw { message := js "Failed to fetch", code := [] }) rfl

/-- C10 (the code at the failing input): for the query `%` on the sample tables,
`searchIssues` returns both published issues, although the character `%` occurs in no
title, short summary or full content of the table. -/
theorem searchIssues_percent_matches_all :
    searchIssues noFaults sampleTables (js "%") =
      successWith (Payload.issues
        [issueOf 3 (js "Year in review")
          (some { year := 2024, month := 12, day := 31, time := 36000000000 }),
         issueOf 1 (js "Typing news")
          (some { year := 2024, month := 6, day := 15, time := 0 })]) ∧
    (sampleTables.issues.all fun i =>
      !(i.title ++ i.short_summary ++ i.full_content).contains 37) = true := by
  constructor
  · rfl
  · decide

/-- Counterexample to C8 as stated: of 40 users 23 are premium, that is 57.5 percent, which
rounds half up to 58; `getUserStats` returns the conversion rate 57, because the product
`(23 / 40) * 100` of doubles is 57.49999999999999. -/
theorem getUserStats_half_not_rounded_up :
    getUserStats noFaults sampleClock (readers 23 40) =
      successWith (Payload.userStats
        { totalUsers := 40
          premiumUsers := 23
          freeUsers := 17
          newThisMonth := 0
          thisMonthIssues := 0
          conversionRate := 57 }) ∧
    roundedPercent 23 40 = 58 := by
  constructor
  · decide
  · decide

theorem log2Fuel_spec (fuel n : Nat) (hn : n ≠ 0) (hf : n ≤ fuel) :
    2 ^ log2Fuel fuel n ≤ n ∧ n < 2 ^ (log2Fuel fuel n + 1) := by
  induction fuel generalizing n with
  | zero => omega
  | succ f ih =>
    unfold log2Fuel
    by_cases h2 : n < 2
    · have h1 : n = 1 := by omega
      subst h1
      simp
    · rw [if_neg h2]
      have hne : n / 2 ≠ 0 := by omega
      have hle : n / 2 ≤ f := by omega
      obtain ⟨ih1, ih2⟩ := ih (n / 2) hne hle
      constructor
      · rw [pow_succ]
        omega
      · rw [pow_succ]
        omega

theorem log2_spec (n : Nat) (hn : n ≠ 0) : 2 ^ log2 n ≤ n ∧ n < 2 ^ (log2 n + 1) :=
  log2Fuel_spec n n hn (Nat.le_refl n)

theorem log2_lt_of_lt_pow (n k : Nat) (hn : n ≠ 0) (h : n < 2 ^ k) : log2 n < k := by
  have h1 := (log2_spec n hn).1
  exact (Nat.pow_lt_pow_iff_right (by decide : 1 < 2)).1 (lt_of_le_of_lt h1 h)

theorem le_log2_of_pow_le (n k : Nat) (h : 2 ^ k ≤ n) : k ≤ log2 n := by
  have hn : n ≠ 0 := by
    have := Nat.two_pow_pos k
    omega
  have h2 := (log2_spec n hn).2
  have := (Nat.pow_lt_pow_iff_right (by decide : 1 < 2)).1 (lt_of_le_of_lt h h2)
  omega

theorem roundHalfEven_spec (n d : Nat) (hd : 0 < d) :
    2 * (roundHalfEven n d * d) ≤ 2 * n + d ∧ 2 * n ≤ 2 * (roundHalfEven n d * d) + d := by
  have hdiv := Nat.div_add_mod n d
  have hmod := Nat.mod_lt n hd
  have hq : (n / d + 1) * d = d * (n / d) + d := by ring
  have hq0 : n / d * d = d * (n / d) := by ring
  unfold roundHalfEven
  split_ifs <;> simp only [hq, hq0] <;> omega

theorem toDouble_cases (n d : Nat) (hn : n ≠ 0) :
    (n * 2 ^ (53 + log2 d - log2 n) < 2 ^ 53 * d ∧
      toDouble n d =
        { m := roundHalfEven (n * 2 ^ (53 + log2 d - log2 n)) d,
          k := 53 + log2 d - log2 n }) ∨
    (2 ^ 53 * d ≤ n * 2 ^ (53 + log2 d - log2 n) ∧
      toDouble n d =
        { m := 2 * roundHalfEven (n * 2 ^ (53 + log2 d - log2 n)) (2 * d),
          k := 53 + log2 d - log2 n }) := by
  unfold toDouble
  simp only [hn, if_false]
  by_cases h : n * 2 ^ (53 + log2 d - log2 n) < 2 ^ 53 * d
  · exact Or.inl ⟨h, by simp only [h, if_true]⟩
  · exact Or.inr ⟨by omega, by simp only [h, if_false]⟩

theorem toDouble_spec (n d : Nat) (hn : 0 < n) (hd : 0 < d) (hlog : log2 n ≤ 53 + log2 d) :
    2 ^ 53 * ((toDouble n d).m * d) ≤ (2 ^ 53 + 1) * (n * 2 ^ (toDouble n d).k) ∧
    (2 ^ 53 - 1) * (n * 2 ^ (toDouble n d).k) ≤ 2 ^ 53 * ((toDouble n d).m * d) := by
  obtain ⟨ha1, ha2⟩ := log2_spec n (by omega)
  obtain ⟨hb1, hb2⟩ := log2_spec d (by omega)
  have e1 : 2 ^ 53 * 2 ^ log2 d = 2 ^ log2 n * 2 ^ (53 + log2 d - log2 n) := by
    rw [← pow_add, ← pow_add]
    congr 1
    omega
  have e2 : 2 ^ 54 * 2 ^ log2 d = 2 ^ (log2 n + 1) * 2 ^ (53 + log2 d - log2 n) := by
    rw [← pow_add, ← pow_add]
    congr 1
    omega
  have hN1 : 2 ^ 53 * 2 ^ log2 d ≤ n * 2 ^ (53 + log2 d - log2 n) := by
    rw [e1]
    exact Nat.mul_le_mul_right _ ha1
  have hN2 : n * 2 ^ (53 + log2 d - log2 n) < 2 ^ 54 * 2 ^ log2 d := by
    rw [e2]
    exact Nat.mul_lt_mul_of_pos_right ha2 (Nat.two_pow_pos _)
  have hb2' : d < 2 * 2 ^ log2 d := by
    rw [pow_succ] at hb2
    omega
  rcases toDouble_cases n d (by omega) with ⟨hcase, heq⟩ | ⟨hcase, heq⟩
  · rw [heq]
    simp only
    obtain ⟨r1, r2⟩ := roundHalfEven_spec (n * 2 ^ (53 + log2 d - log2 n)) d hd
    generalize roundHalfEven (n * 2 ^ (53 + log2 d - log2 n)) d * d = M at r1 r2 ⊢
    generalize n * 2 ^ (53 + log2 d - log2 n) = N at hN1 hN2 hcase r1 r2 ⊢
    generalize 2 ^ log2 d = B at hN1 hN2 hb1 hb2'
    norm_num at hN1 hN2 hcase ⊢
    constructor <;> omega
  · rw [heq]
    simp only
    obtain ⟨r1, r2⟩ := roundHalfEven_spec (n * 2 ^ (53 + log2 d - log2 n)) (2 * d) (by omega)
    have hM : 2 * roundHalfEven (n * 2 ^ (53 + log2 d - log2 n)) (2 * d) * d =
        roundHalfEven (n * 2 ^ (53 + log2 d - log2 n)) (2 * d) * (2 * d) := by ring
    rw [hM]
    generalize roundHalfEven (n * 2 ^ (53 + log2 d - log2 n)) (2 * d) * (2 * d) = M
      at r1 r2 ⊢
    generalize n * 2 ^ (53 + log2 d - log2 n) = N at hN1 hN2 hcase r1 r2 ⊢
    generalize 2 ^ log2 d = B at hN1 hN2 hb1 hb2'
    norm_num at hN1 hN2 hcase ⊢
    constructor <;> omega
theorem ratio_le (c c2 u v w z : ℚ) (hv : 0 < v) (hz : 0 < z)
    (h : c * (u * z) ≤ c2 * (w * v)) : c * (u / v) ≤ c2 * (w / z) := by
  rw [← mul_div_assoc, ← mul_div_assoc, div_le_div_iff₀ hv hz]
  calc c * u * z = c * (u * z) := by ring
    _ ≤ c2 * (w * v) := h
    _ = c2 * w * v := by ring

theorem round_near (r R : ℕ) (E Y X δ : ℚ) (hE1 : E ≤ 1)
    (hY1 : (9007199254740992 : ℚ) * Y ≤ 9007199254740993 * E)
    (hY2 : (9007199254740991 : ℚ) * E ≤ 9007199254740992 * Y)
    (hX1 : (9007199254740992 : ℚ) * X ≤ 9007199254740993 * (100 * Y))
    (hX2 : (9007199254740991 : ℚ) * (100 * Y) ≤ 9007199254740992 * X)
    (hr1 : (r : ℚ) ≤ X + 1 / 2) (hr2 : X + 1 / 2 < r + 1)
    (hR1 : (R : ℚ) ≤ 100 * E + 1 / 2)
    (hR2 : 100 * E + 1 / 2 + δ ≤ R + 1)
    (hδ : 1 / 8589934592 ≤ δ)
    (hstrict : (R : ℚ) ≠ 100 * E + 1 / 2 → (R : ℚ) + δ ≤ 100 * E + 1 / 2) :
    r = R ∨ ((R : ℚ) = 100 * E + 1 / 2 ∧ r + 1 = R) := by
  have h1 : r ≤ R := by
    by_contra hlt
    have h : R + 1 ≤ r := by omega
    have hq : (R : ℚ) + 1 ≤ r := by exact_mod_cast h
    linarith
  have h2 : R ≤ r + 1 := by
    by_contra hlt
    have h : r + 2 ≤ R := by omega
    have hq : (r : ℚ) + 2 ≤ R := by exact_mod_cast h
    linarith
  by_cases h3 : r = R
  · exact Or.inl h3
  · right
    have h4 : r + 1 = R := by omega
    refine ⟨?_, h4⟩
    by_contra hne
    have hs := hstrict hne
    have hq : (r : ℚ) + 1 = R := by exact_mod_cast h4
    linarith

theorem cast_div_bounds (n d : ℕ) :
    ((n / d : ℕ) : ℚ) ≤ (n : ℚ) / d ∧ (n : ℚ) / d < ((n / d : ℕ) : ℚ) + 1 := by
  have hfl : ⌊(n : ℚ) / d⌋₊ = n / d := Nat.floor_div_eq_div n d
  have h0 : (0 : ℚ) ≤ (n : ℚ) / d := by positivity
  constructor
  · rw [← hfl]
    exact Nat.floor_le h0
  · rw [← hfl]
    exact Nat.lt_floor_add_one _

theorem conversionRate_near (p t : ℕ) (hp : 0 < p) (hpt : p ≤ t) (ht : t < 2 ^ 32) :
    conversionRate p t = roundedPercent p t ∨
      (200 * p % (2 * t) = t ∧ conversionRate p t + 1 = roundedPercent p t) := by
  have ht0 : 0 < t := by omega
  have hlog1 : log2 p ≤ 53 + log2 t := by
    have := le_log2_of_pow_le t (log2 p) (le_trans (log2_spec p (by omega)).1 hpt)
    omega
  obtain ⟨A1, A2⟩ := toDouble_spec p t hp ht0 hlog1
  have hconv : conversionRate p t =
      mathRound (toDouble ((toDouble p t).m * 100) (2 ^ (toDouble p t).k)) := by
    unfold conversionRate
    rw [if_pos ht0]
  rw [hconv]
  generalize (toDouble p t).m = m1 at A1 A2 ⊢
  generalize (toDouble p t).k = k1 at A1 A2 ⊢
  have ha : 0 < 2 ^ k1 := Nat.two_pow_pos k1
  have hpa : 0 < p * 2 ^ k1 := Nat.mul_pos hp ha
  have hm1pos : 0 < m1 := by
    rcases Nat.eq_zero_or_pos m1 with h0 | h0
    · subst h0
      norm_num at A2
      omega
    · exact h0
  have hm1le : m1 ≤ 2 * 2 ^ k1 := by
    by_contra h
    have h1 : 2 * 2 ^ k1 + 1 ≤ m1 := by omega
    have h2 : (2 * 2 ^ k1 + 1) * t ≤ m1 * t := Nat.mul_le_mul_right t h1
    have h3 : p * 2 ^ k1 ≤ t * 2 ^ k1 := Nat.mul_le_mul_right _ hpt
    have h4 : (2 * 2 ^ k1 + 1) * t = 2 * (t * 2 ^ k1) + t := by ring
    rw [h4] at h2
    norm_num at A1
    generalize m1 * t = M at A1 h2
    generalize p * 2 ^ k1 = P at A1 h3
    generalize t * 2 ^ k1 = T at h2 h3
    omega
  have hlog2 : log2 (m1 * 100) ≤ 53 + log2 (2 ^ k1) := by
    have h1 : m1 * 100 < 2 ^ (54 + k1) := by
      rw [pow_add]
      norm_num
      omega
    have h2 := log2_lt_of_lt_pow (m1 * 100) (54 + k1) (by omega) h1
    have h3 := le_log2_of_pow_le (2 ^ k1) k1 (le_refl _)
    omega
  obtain ⟨B1, B2⟩ := toDouble_spec (m1 * 100) (2 ^ k1) (by omega) ha hlog2
  unfold mathRound
  generalize (toDouble (m1 * 100) (2 ^ k1)).m = m2 at B1 B2 ⊢
  generalize (toDouble (m1 * 100) (2 ^ k1)).k = k2 at B1 B2 ⊢
  have hR : roundedPercent p t = (200 * p + t) / (2 * t) := by
    unfold roundedPercent
    rw [if_neg (by omega)]
  rw [hR]
  -- the rationals
  have haq : (0 : ℚ) < (2 : ℚ) ^ k1 := by positivity
  have hbq : (0 : ℚ) < (2 : ℚ) ^ k2 := by positivity
  have htq : (0 : ℚ) < (t : ℚ) := by exact_mod_cast ht0
  have A1q : (9007199254740992 : ℚ) * ((m1 : ℚ) * t) ≤ 9007199254740993 * ((p : ℚ) * 2 ^ k1) := by
    norm_num at A1
    exact_mod_cast A1
  have A2q : (9007199254740991 : ℚ) * ((p : ℚ) * 2 ^ k1) ≤ 9007199254740992 * ((m1 : ℚ) * t) := by
    norm_num at A2
    exact_mod_cast A2
  have B1q : (9007199254740992 : ℚ) * ((m2 : ℚ) * 2 ^ k1) ≤
      9007199254740993 * (((m1 : ℚ) * 100) * 2 ^ k2) := by
    norm_num at B1
    exact_mod_cast B1
  have B2q : (9007199254740991 : ℚ) * (((m1 : ℚ) * 100) * 2 ^ k2) ≤
      9007199254740992 * ((m2 : ℚ) * 2 ^ k1) := by
    norm_num at B2
    exact_mod_cast B2
  have hY1 := ratio_le _ _ _ _ _ _ haq htq A1q
  have hY2 := ratio_le _ _ _ _ _ _ htq haq A2q
  have hX1 := ratio_le _ _ _ _ _ _ hbq haq B1q
  have hX2 := ratio_le _ _ _ _ _ _ haq hbq B2q
  have hW : ((m1 : ℚ) * 100) / 2 ^ k1 = 100 * ((m1 : ℚ) / 2 ^ k1) := by ring
  rw [hW] at hX1 hX2
  have hE1 : (p : ℚ) / t ≤ 1 := by
    rw [div_le_one htq]
    exact_mod_cast hpt
  obtain ⟨r1, r2⟩ := cast_div_bounds (2 * m2 + 2 ^ k2) (2 * 2 ^ k2)
  obtain ⟨R1, R2⟩ := cast_div_bounds (200 * p + t) (2 * t)
  have hXeq : (((2 * m2 + 2 ^ k2 : ℕ) : ℚ)) / ((2 * 2 ^ k2 : ℕ) : ℚ) =
      (m2 : ℚ) / 2 ^ k2 + 1 / 2 := by
    push_cast
    field_simp
    ring
  have hEeq : (((200 * p + t : ℕ) : ℚ)) / ((2 * t : ℕ) : ℚ) =
      100 * ((p : ℚ) / t) + 1 / 2 := by
    push_cast
    field_simp
    ring
  rw [hXeq] at r1 r2
  rw [hEeq] at R1 R2
  -- the distance of the exact percentage from the next rounding boundary
  have hdm := Nat.div_add_mod (200 * p + t) (2 * t)
  have hml := Nat.mod_lt (200 * p + t) (by omega : 0 < 2 * t)
  generalize (200 * p + t) / (2 * t) = R at hdm R1 R2 ⊢
  generalize (200 * p + t) % (2 * t) = μ at hdm hml
  have hdmq : (2 : ℚ) * t * R + μ = 200 * p + t := by exact_mod_cast hdm
  have hmlq : (μ : ℚ) + 1 ≤ 2 * t := by exact_mod_cast hml
  have hpE : (p : ℚ) = (p : ℚ) / t * t := by field_simp
  have hδ : (1 : ℚ) / 8589934592 ≤ 1 / (2 * t) := by
    apply one_div_le_one_div_of_le (by positivity)
    have : (t : ℚ) ≤ 4294967296 := by
      have h32 : t ≤ 4294967296 := by
        norm_num at ht
        omega
      exact_mod_cast h32
    linarith
  have hδt : (1 : ℚ) / (2 * t) * (2 * t) = 1 := by field_simp
  have hR2 : 100 * ((p : ℚ) / t) + 1 / 2 + 1 / (2 * t) ≤ R + 1 := by
    have h : (100 * ((p : ℚ) / t) + 1 / 2 + 1 / (2 * t)) * (2 * t) ≤ ((R : ℚ) + 1) * (2 * t) := by
      have e : (100 * ((p : ℚ) / t) + 1 / 2 + 1 / (2 * t)) * (2 * t) =
          200 * ((p : ℚ) / t * t) + t + 1 / (2 * t) * (2 * t) := by ring
      rw [e, ← hpE, hδt]
      linarith
    exact le_of_mul_le_mul_right h (by positivity)
  have hstrict : (R : ℚ) ≠ 100 * ((p : ℚ) / t) + 1 / 2 →
      (R : ℚ) + 1 / (2 * t) ≤ 100 * ((p : ℚ) / t) + 1 / 2 := by
    intro hne
    have hμ : μ ≠ 0 := by
      intro h0
      apply hne
      have h : (R : ℚ) * (2 * t) = (100 * ((p : ℚ) / t) + 1 / 2) * (2 * t) := by
        have e : (100 * ((p : ℚ) / t) + 1 / 2) * (2 * t) = 200 * ((p : ℚ) / t * t) + t := by
          ring
        rw [e, ← hpE]
        rw [h0] at hdmq
        push_cast at hdmq
        linarith
      exact mul_right_cancel₀ (by positivity) h
    have hμ1 : (1 : ℚ) ≤ μ := by
      have : 1 ≤ μ := by omega
      exact_mod_cast this
    have h : ((R : ℚ) + 1 / (2 * t)) * (2 * t) ≤ (100 * ((p : ℚ) / t) + 1 / 2) * (2 * t) := by
      have e1 : ((R : ℚ) + 1 / (2 * t)) * (2 * t) = 2 * t * R + 1 / (2 * t) * (2 * t) := by ring
      have e2 : (100 * ((p : ℚ) / t) + 1 / 2) * (2 * t) = 200 * ((p : ℚ) / t * t) + t := by
        ring
      rw [e1, e2, ← hpE, hδt]
      linarith
    exact le_of_mul_le_mul_right h (by positivity)
  rcases round_near _ R _ _ _ _ hE1 hY1 hY2 hX1 hX2 r1 r2 R1 hR2 hδ hstrict with
    h | ⟨htie, hsucc⟩
  · exact Or.inl h
  · right
    refine ⟨?_, hsucc⟩
    have h : (R : ℚ) * (2 * t) = 200 * p + t := by
      rw [htie]
      have e : (100 * ((p : ℚ) / t) + 1 / 2) * (2 * t) = 200 * ((p : ℚ) / t * t) + t := by
        ring
      rw [e, ← hpE]
    have hn : R * (2 * t) = 200 * p + t := by exact_mod_cast h
    rw [← hsucc] at hn
    have h200 : 200 * p = t + (2 * m2 + 2 ^ k2) / (2 * 2 ^ k2) * (2 * t) := by
      have e : ((2 * m2 + 2 ^ k2) / (2 * 2 ^ k2) + 1) * (2 * t) =
          (2 * m2 + 2 ^ k2) / (2 * 2 ^ k2) * (2 * t) + 2 * t := by ring
      rw [e] at hn
      omega
    rw [h200, Nat.add_mul_mod_self_right]
    exact Nat.mod_eq_of_lt (by omega)

theorem conversionRate_zero (t : ℕ) : conversionRate 0 t = 0 := by
  unfold conversionRate
  by_cases ht : t > 0
  · rw [if_pos ht]
    have h0 : toDouble 0 t = { m := 0, k := 0 } := by simp [toDouble]
    rw [h0]
    have h1 : toDouble (0 * 100) (2 ^ 0) = { m := 0, k := 0 } := by simp [toDouble]
    rw [h1]
    decide
  · rw [if_neg ht]

theorem conversionRate_spec (p t : ℕ) (hpt : p ≤ t) (ht : t < 2 ^ 32) :
    conversionRate p t = roundedPercent p t ∨
      (200 * p % (2 * t) = t ∧ conversionRate p t + 1 = roundedPercent p t) := by
  rcases Nat.eq_zero_or_pos p with hp | hp
  · subst hp
    left
    rw [conversionRate_zero]
    unfold roundedPercent
    split_ifs with h0
    · rfl
    · exact (Nat.div_eq_of_lt (by omega)).symm
  · exact conversionRate_near p t hp hpt ht

theorem orFalse_eq_decide (b : Option Bool) : orFalse b = decide (b = some true) := by
  cases b with
  | none => rfl
  | some v => cases v <;> rfl

theorem getUserStats_eq_success (faults : Faults) (clock : Clock) (db : Tables)
    (stats : UserStats)
    (h : getUserStats faults clock db = successWith (Payload.userStats stats)) :
    stats.totalUsers = db.users.length ∧
    stats.premiumUsers = (db.users.filter fun u => orFalse u.is_premium).length ∧
    stats.conversionRate = conversionRate stats.premiumUsers stats.totalUsers := by
  unfold getUserStats at h
  cases h0 : faults 0 with
  | some f => cases f <;> simp [h0, respond, envelopeOf, failureOf, successWith] at h
  | none =>
    cases h1 : faults 1 with
    | some f => cases f <;> simp [h0, h1, respond, envelopeOf, failureOf, successWith] at h
    | none =>
      cases hs : selectIssues db [Filter.notIsNull (js "published_at")] with
      | error e => simp [h0, h1, hs, respond, envelopeOf, failureOf, successWith] at h
      | ok issues =>
        simp only [h0, h1, hs, respond, envelopeOf, successWith, Envelope.mk.injEq,
          Option.some.injEq, Payload.userStats.injEq, true_and, and_true] at h
        subst h
        exact ⟨rfl, rfl, rfl⟩

/-- C8 (amended): on the users the backend returns (an array, so fewer than `2 ^ 32` rows)
`getUserStats` reports `totalUsers` the number of rows, `premiumUsers` the number of rows
whose `is_premium` is true, and a `conversionRate` that is 0 when there is no user and
otherwise is `premiumUsers / totalUsers` as a percentage rounded to the nearest integer
with halves rounded up, except that when the percentage is exactly half-way between two
integers the rate may be the lower of the two. -/
theorem getUserStats_conversionRate (faults : Faults) (clock : Clock) (db : Tables)
    (stats : UserStats) (hsize : db.users.length < 2 ^ 32)
    (h : getUserStats faults clock db = successWith (Payload.userStats stats)) :
    stats.totalUsers = db.users.length ∧
    stats.premiumUsers = (db.users.filter fun u => decide (u.is_premium = some true)).length ∧
    (stats.totalUsers = 0 → stats.conversionRate = 0) ∧
    (stats.conversionRate = roundedPercent stats.premiumUsers stats.totalUsers ∨
      (200 * stats.premiumUsers % (2 * stats.totalUsers) = stats.totalUsers ∧
        stats.conversionRate + 1 = roundedPercent stats.premiumUsers stats.totalUsers)) := by
  obtain ⟨h1, h2, h3⟩ := getUserStats_eq_success faults clock db stats h
  have hfilter : (db.users.filter fun u => orFalse u.is_premium) =
      db.users.filter fun u => decide (u.is_premium = some true) := by
    congr 1
    funext u
    exact orFalse_eq_decide u.is_premium
  have hle : stats.premiumUsers ≤ stats.totalUsers := by
    rw [h1, h2]
    exact List.length_filter_le _ _
  refine ⟨h1, ?_, ?_, ?_⟩
  · rw [h2, hfilter]
  · intro h0
    rw [h3, h0]
    simp [conversionRate]
  · rw [h3]
    exact conversionRate_spec _ _ hle (by rw [h1]; exact hsize)

/-- Witness for C8: 10 users of which 3 are premium give the conversion rate 30. -/
theorem getUserStats_conversionRate_witness :
    (30 = roundedPercent 3 10 ∨ (200 * 3 % (2 * 10) = 10 ∧ 30 + 1 = roundedPercent 3 10)) ∧
    roundedPercent 3 10 = 30 :=
  ⟨(getUserStats_conversionRate noFaults sampleClock (readers 3 10)
      { totalUsers := 10, premiumUsers := 3, freeUsers := 7, newThisMonth := 0,
        thisMonthIssues := 0, conversionRate := 30 }
      (by decide) (by decide)).2.2.2, by decide⟩

theorem Timestamp.le_total (a b : Timestamp) : a.le b = true ∨ b.le a = true := by
  simp only [Timestamp.le, Bool.or_eq_true, Bool.and_eq_true, decide_eq_true_eq]
  omega

theorem Timestamp.le_trans (a b c : Timestamp) (h1 : a.le b = true) (h2 : b.le c = true) :
    a.le c = true := by
  simp only [Timestamp.le, Bool.or_eq_true, Bool.and_eq_true, decide_eq_true_eq] at h1 h2 ⊢
  omega

theorem publishedAtDesc_total (a b : Issue) : publishedAtDesc a b ∨ publishedAtDesc b a := by
  unfold publishedAtDesc
  cases ha : a.published_at <;> cases hb : b.published_at <;> simp
  exact (Timestamp.le_total _ _).symm

theorem publishedAtDesc_trans (a b c : Issue) (h1 : publishedAtDesc a b)
    (h2 : publishedAtDesc b c) : publishedAtDesc a c := by
  unfold publishedAtDesc at h1 h2 ⊢
  cases ha : a.published_at <;> cases hb : b.published_at <;> cases hc : c.published_at <;>
    simp [ha, hb, hc] at h1 h2 ⊢
  exact Timestamp.le_trans _ _ _ h2 h1

theorem sorted_orderByPublishedAtDesc (rows : List Issue) :
    (orderByPublishedAtDesc rows).Pairwise publishedAtDesc := by
  haveI : IsTotal Issue publishedAtDesc := ⟨publishedAtDesc_total⟩
  haveI : IsTrans Issue publishedAtDesc := ⟨publishedAtDesc_trans⟩
  exact List.sorted_insertionSort publishedAtDesc rows

theorem selectIssues_published_only (db : Tables) :
    selectIssues db [Filter.notIsNull (js "published_at")] =
      Except.ok (db.issues.filter fun i => i.published_at.isSome) := by
  simp only [selectIssues, compileFilters, compileFilter, issueColumn_published_at, Except.map]
  congr 1
  apply List.filter_congr
  intro i _
  cases i.published_at <;> simp

theorem getAllIssues_eq (faults : Faults) (db : Tables) (h : faults 0 = none) :
    getAllIssues faults db =
      successWith (Payload.issues
        (orderByPublishedAtDesc (db.issues.filter fun i => i.published_at.isSome))) := by
  simp only [getAllIssues, h, selectIssues_published_only, Except.map, respond, envelopeOf]

theorem notEarlier_of_published (a b : Issue) (ha : a.published_at.isSome = true)
    (hb : b.published_at.isSome = true) (h : publishedAtDesc a b) : notEarlier a b := by
  unfold publishedAtDesc at h
  unfold notEarlier
  cases hpa : a.published_at <;> cases hpb : b.published_at <;> simp_all

theorem published_rows (db : Tables) :
    (orderByPublishedAtDesc (db.issues.filter fun i => i.published_at.isSome)).Perm
        (db.issues.filter fun i => i.published_at.isSome) ∧
    (orderByPublishedAtDesc (db.issues.filter fun i => i.published_at.isSome)).Pairwise
        notEarlier := by
  constructor
  · exact List.perm_insertionSort publishedAtDesc _
  · refine List.Pairwise.imp_of_mem ?_ (sorted_orderByPublishedAtDesc _)
    intro a b ha hb hab
    have ha2 := (List.mem_filter.1 ((mem_orderByPublishedAtDesc _ a).1 ha)).2
    have hb2 := (List.mem_filter.1 ((mem_orderByPublishedAtDesc _ b).1 hb)).2
    exact notEarlier_of_published a b ha2 hb2 hab

theorem notEarlier_self (a : Issue) (h : a.published_at.isSome = true) : notEarlier a a := by
  unfold notEarlier
  cases hpa : a.published_at with
  | none => simp [hpa] at h
  | some t => simp [Timestamp.le]

/-- C11: when the request does not fail, `getAllIssues` returns the published issues of the
table, all of them and nothing else (a permutation), each one before every issue with an
earlier `published_at`; and when a published issue exists `getLatestIssue` succeeds with the
first issue of that list, a published issue of the table whose `published_at` is greater
than or equal to that of every published issue. -/
theorem public_reads_most_recent_first (faults : Faults) (db : Tables)
    (h : faults 0 = none) :
    ∃ rows, getAllIssues faults db = successWith (Payload.issues rows) ∧
      rows.Perm (db.issues.filter fun i => i.published_at.isSome) ∧
      rows.Pairwise notEarlier ∧
      ((∃ i ∈ db.issues, i.published_at.isSome = true) →
        ∃ latest rest, rows = latest :: rest ∧
          getLatestIssue faults db = successWith (Payload.issue latest) ∧
          latest ∈ db.issues ∧ latest.published_at.isSome = true ∧
          ∀ j ∈ db.issues, j.published_at.isSome = true → notEarlier latest j) := by
  obtain ⟨hperm, hsorted⟩ := published_rows db
  refine ⟨_, getAllIssues_eq faults db h, hperm, hsorted, ?_⟩
  rintro ⟨i, hi, hpub⟩
  have hmem : i ∈ orderByPublishedAtDesc (db.issues.filter fun i => i.published_at.isSome) :=
    hperm.mem_iff.2 (List.mem_filter.2 ⟨hi, hpub⟩)
  cases hrows : orderByPublishedAtDesc (db.issues.filter fun i => i.published_at.isSome) with
  | nil =>
    rw [hrows] at hmem
    cases hmem
  | cons latest rest =>
    rw [hrows] at hperm hsorted
    have hl := List.mem_filter.1 (hperm.mem_iff.1 (List.mem_cons_self latest rest))
    refine ⟨latest, rest, rfl, ?_, hl.1, hl.2, ?_⟩
    · simp only [getLatestIssue, h, selectIssues_published_only, Except.map, hrows, respond,
        single, envelopeOf, List.take_succ_cons, List.take_zero]
    · intro j hj hjp
      have hjm : j ∈ latest :: rest := hperm.mem_iff.2 (List.mem_filter.2 ⟨hj, hjp⟩)
      rcases List.mem_cons.1 hjm with hjl | hjr
      · subst hjl
        exact notEarlier_self j hjp
      · exact List.rel_of_pairwise_cons hsorted hjr

/-- Witness for C11: on the sample tables `getLatestIssue` succeeds with a published
issue. -/
theorem public_reads_most_recent_first_witness :
    ∃ latest, getLatestIssue noFaults sampleTables = successWith (Payload.issue latest) ∧
      latest.published_at.isSome = true := by
  obtain ⟨_, _, _, _, hlatest⟩ := public_reads_most_recent_first noFaults sampleTables rfl
  obtain ⟨latest, _, _, hget, _, hpub, _⟩ := hlatest
    ⟨issueOf 1 (js "Typing news") (some { year := 2024, month := 6, day := 15, time := 0 }),
      by decide, rfl⟩
  exact ⟨latest, hget, hpub⟩

/-- C12 (the code at the failing input): on the sample tables `getIssueBySlug` returns the
draft `issue-2`, whose `published_at` is null, with `success: true`; the request filters on
the slug only. -/
theorem getIssueBySlug_returns_draft :
    getIssueBySlug noFaults sampleTables (js "issue-2") =
      successWith (Payload.issue (issueOf 2 (js "Draft") none)) ∧
    (issueOf 2 (js "Draft") none).published_at = none := by
  constructor
  · rfl
  · rfl

/-- Counterexample to C13 as stated: `updateUserPremiumStatus` and `updateUserAdminStatus`
change the record of the sample reader and return `{ success: true }` without the row. -/
theorem updateUserStatus_returns_no_row :
    updateUserPremiumStatus noFaults { issues := [], users := [sampleReaderRow] }
        (js "u-1") false =
      ({ issues := [], users := [{ sampleReaderRow with is_premium := some false }] },
        { success := true, data := none, message := none }) ∧
    updateUserAdminStatus noFaults { issues := [], users := [sampleReaderRow] }
        (js "u-1") true =
      ({ issues := [], users := [{ sampleReaderRow with is_admin := some true }] },
        { success := true, data := none, message := none }) := by
  constructor <;> rfl

theorem createIssue_cases (faults : Faults) (db : Tables) (d : IssueData) :
    (faults 0 = none ∧
      createIssue faults db d =
        ({ db with issues := db.issues ++ [d.toRow (nextIssueId db)] },
          successWith (Payload.issue (d.toRow (nextIssueId db))))) ∨
    (∃ f, faults 0 = some f ∧ createIssue faults db d = (db, failureOf f.cause)) := by
  unfold createIssue
  cases h : faults 0 with
  | none => exact Or.inl ⟨rfl, rfl⟩
  | some f => cases f <;> exact Or.inr ⟨_, rfl, rfl⟩

theorem updateIssue_cases (faults : Faults) (db : Tables) (issueId : Nat) (d : IssueData) :
    (faults 0 = none ∧ (∃ old, (db.issues.filter fun i => i.id = issueId) = [old]) ∧
      updateIssue faults db issueId d =
        ({ db with issues := db.issues.map fun i =>
            if i.id = issueId then d.toRow issueId else i },
          successWith (Payload.issue (d.toRow issueId)))) ∨
    (∃ e, updateIssue faults db issueId d = (db, failureOf e)) := by
  unfold updateIssue
  cases h : faults 0 with
  | some f => cases f <;> exact Or.inr ⟨_, rfl⟩
  | none =>
    cases hl : (db.issues.filter fun i => i.id = issueId) with
    | nil => exact Or.inr ⟨notFound, by simp [respond, single]⟩
    | cons a t =>
      cases t with
      | nil => exact Or.inl ⟨rfl, ⟨a, rfl⟩, by simp [respond, single]⟩
      | cons b t2 => exact Or.inr ⟨notFound, by simp [respond, single]⟩

theorem bare_mutation_cases (faults : Faults) (db t : Tables) :
    (faults 0 = none ∧
      (match respond (faults 0) (Except.ok ()) with
        | Response.data _ => (t, successBare)
        | Response.error e => (db, failureOf e)
        | Response.threw e => (db, failureOf e)) = (t, successBare)) ∨
    (∃ f, faults 0 = some f ∧
      (match respond (faults 0) (Except.ok ()) with
        | Response.data _ => (t, successBare)
        | Response.error e => (db, failureOf e)
        | Response.threw e => (db, failureOf e)) = (db, failureOf f.cause)) := by
  cases h : faults 0 with
  | none => exact Or.inl ⟨rfl, rfl⟩
  | some f => cases f <;> exact Or.inr ⟨_, rfl, rfl⟩

/-- C13 (amended): each mutation makes one remote call (its outcome depends on the failure
of call 0 only) and either fails, leaving the tables unchanged and returning the failure
envelope, or applies its one write.  On success `createIssue` and `updateIssue` return an
envelope whose data is the affected row, a row of the table after the call, while
`deleteIssue`, `updateUserPremiumStatus` and `updateUserAdminStatus` return
`{ success: true }` with no data. -/
theorem mutations_single_write (faults faults2 : Faults) (db : Tables) (issueData : IssueData)
    (issueId : Nat) (userId : JSString) (flag : Bool) (hsame : faults 0 = faults2 0) :
    (createIssue faults db issueData = createIssue faults2 db issueData ∧
      updateIssue faults db issueId issueData = updateIssue faults2 db issueId issueData ∧
      deleteIssue faults db issueId = deleteIssue faults2 db issueId ∧
      updateUserPremiumStatus faults db userId flag =
        updateUserPremiumStatus faults2 db userId flag ∧
      updateUserAdminStatus faults db userId flag =
        updateUserAdminStatus faults2 db userId flag) ∧
    ((∃ row, row ∈ (createIssue faults db issueData).1.issues ∧
        createIssue faults db issueData =
          ({ db with issues := db.issues ++ [row] }, successWith (Payload.issue row))) ∨
      ∃ e, createIssue faults db issueData = (db, failureOf e)) ∧
    ((∃ row, row ∈ (updateIssue faults db issueId issueData).1.issues ∧ row.id = issueId ∧
        updateIssue faults db issueId issueData =
          ({ db with issues := db.issues.map fun i => if i.id = issueId then row else i },
            successWith (Payload.issue row))) ∨
      ∃ e, updateIssue faults db issueId issueData = (db, failureOf e)) ∧
    (deleteIssue faults db issueId =
        ({ db with issues := db.issues.filter fun i => i.id ≠ issueId },
          { success := true, data := none, message := none }) ∨
      ∃ e, deleteIssue faults db issueId = (db, failureOf e)) ∧
    (updateUserPremiumStatus faults db userId flag =
        ({ db with users := db.users.map fun u =>
            if u.id = userId then { u with is_premium := some flag } else u },
          { success := true, data := none, message := none }) ∨
      ∃ e, updateUserPremiumStatus faults db userId flag = (db, failureOf e)) ∧
    (updateUserAdminStatus faults db userId flag =
        ({ db with users := db.users.map fun u =>
            if u.id = userId then { u with is_admin := some flag } else u },
          { success := true, data := none, message := none }) ∨
      ∃ e, updateUserAdminStatus faults db userId flag = (db, failureOf e)) := by
  refine ⟨?_, ?_, ?_, ?_, ?_, ?_⟩
  · simp only [createIssue, updateIssue, deleteIssue, updateUserPremiumStatus,
      updateUserAdminStatus, hsame, and_self]
  · rcases createIssue_cases faults db issueData with ⟨_, h⟩ | ⟨f, _, h⟩
    · left
      refine ⟨issueData.toRow (nextIssueId db), ?_, h⟩
      rw [h]
      simp
    · exact Or.inr ⟨_, h⟩
  · rcases updateIssue_cases faults db issueId issueData with ⟨_, ⟨old, hold⟩, h⟩ | h
    · left
      refine ⟨issueData.toRow issueId, ?_, rfl, h⟩
      rw [h]
      have hmem : old ∈ db.issues.filter fun i => i.id = issueId := by
        rw [hold]
        exact List.mem_singleton_self old
      obtain ⟨h1, h2⟩ := List.mem_filter.1 hmem
      refine List.mem_map.2 ⟨old, h1, ?_⟩
      have h3 : old.id = issueId := by simpa using h2
      simp [h3]
    · exact Or.inr h
  · rcases bare_mutation_cases faults db
      { db with issues := db.issues.filter fun i => i.id ≠ issueId } with ⟨_, h⟩ | ⟨f, _, h⟩
    · exact Or.inl h
    · exact Or.inr ⟨_, h⟩
  · rcases bare_mutation_cases faults db
      { db with users := db.users.map fun u =>
          if u.id = userId then { u with is_premium := some flag } else u } with
      ⟨_, h⟩ | ⟨f, _, h⟩
    · exact Or.inl h
    · exact Or.inr ⟨_, h⟩
  · rcases bare_mutation_cases faults db
      { db with users := db.users.map fun u =>
          if u.id = userId then { u with is_admin := some flag } else u } with
      ⟨_, h⟩ | ⟨f, _, h⟩
    · exact Or.inl h
    · exact Or.inr ⟨_, h⟩

/-- Witness for C13: `createIssue` returns the same whether or not later remote calls
would fail. -/
theorem mutations_single_write_witness :
    createIssue noFaults emptyTables sampleIssueData =
      createIssue laterCallsFail emptyTables sampleIssueData :=
  (mutations_single_write noFaults laterCallsFail emptyTables sampleIssueData 1 (js "u-1")
    true rfl).1.1

/-- C15: in `handleUserLogin` a lookup that fails with an error whose code is not
`PGRST116`, or that throws, inserts nothing (the tables are unchanged), does not update the
auth UI, and is reported on the console and by an alert with the message of the error; a
lookup answered with `PGRST116` leads to the insert of the record; a record is inserted, or
the tables change at all, only when the lookup was answered with the code `PGRST116`.  The
function returns normally in every case. -/
theorem handleUserLogin_lookup_failure (env : LoginEnv) (db : Tables) (u : AuthUser) :
    (∀ e, (env.faults 0 = some (Fault.error e) ∧ e.code ≠ js "PGRST116") ∨
          env.faults 0 = some (Fault.threw e) →
      handleUserLogin env db u =
        (db, [AuthEffect.consoleError (js "Error handling user login:") e,
              AuthEffect.alert (js "Error setting up user account: " ++ e.message)])) ∧
    (∀ e, respond (env.faults 0) (single (usersById db u.id)) = Response.error e →
      e.code = js "PGRST116" → env.faults 1 = none →
      (handleUserLogin env db u).1 =
        { db with users := db.users ++
            [{ id := u.id, email := u.email, is_premium := some false,
               is_admin := some false, created_at := some env.now }] }) ∧
    (∀ row, AuthEffect.insertUser row ∈ (handleUserLogin env db u).2 →
      ∃ e, respond (env.faults 0) (single (usersById db u.id)) = Response.error e ∧
        e.code = js "PGRST116") ∧
    ((handleUserLogin env db u).1 ≠ db →
      ∃ e, respond (env.faults 0) (single (usersById db u.id)) = Response.error e ∧
        e.code = js "PGRST116") := by
  refine ⟨?_, ?_, ?_, ?_⟩
  · rintro e (⟨h, hc⟩ | h)
    · simp [handleUserLogin, h, respond, hc, loginFailed]
    · simp [handleUserLogin, h, respond, loginFailed]
  · intro e hr hc h1
    unfold handleUserLogin
    rw [hr]
    simp [hc, createUserRecord, h1, respond, newUserRecord]
  · intro row hrow
    unfold handleUserLogin at hrow
    cases hr : respond (env.faults 0) (single (usersById db u.id)) with
    | data d =>
      rw [hr] at hrow
      simp only [loginDone] at hrow
      split_ifs at hrow <;> simp at hrow
    | threw e =>
      rw [hr] at hrow
      simp [loginFailed] at hrow
    | error e =>
      rw [hr] at hrow
      by_cases hc : e.code = js "PGRST116"
      · exact ⟨e, rfl, hc⟩
      · simp [hc, loginFailed] at hrow
  · intro hne
    unfold handleUserLogin at hne
    cases hr : respond (env.faults 0) (single (usersById db u.id)) with
    | data d =>
      rw [hr] at hne
      exact absurd rfl hne
    | threw e =>
      rw [hr] at hne
      exact absurd rfl hne
    | error e =>
      rw [hr] at hne
      by_cases hc : e.code = js "PGRST116"
      · exact ⟨e, rfl, hc⟩
      · simp [hc] at hne

/-- Witness for C15: a lookup refused with the code `42501` leaves the tables empty and
alerts. -/
theorem handleUserLogin_lookup_failure_witness :
    handleUserLogin refusedLoginEnv emptyTables sampleReader =
      (emptyTables,
        [AuthEffect.consoleError (js "Error handling user login:") permissionDenied,
         AuthEffect.alert
           (js "Error setting up user account: " ++ permissionDenied.message)]) :=
  (handleUserLogin_lookup_failure refusedLoginEnv emptyTables sampleReader).1
    permissionDenied (Or.inl ⟨rfl, by decide⟩)

/-- C16: two issues that agree on every field other than `full_content` give the same card
to a viewer who is not premium. -/
theorem displayLatestIssue_noninterference (pg : Page) (i1 i2 : Issue)
    (htitle : i1.title = i2.title) (hsummary : i1.short_summary = i2.short_summary)
    (hslug : i1.slug = i2.slug) (hdl : i1.has_download = i2.has_download)
    (_hurl : i1.download_url = i2.download_url) (hpub : i1.published_at = i2.published_at)
    (_hid : i1.id = i2.id) :
    displayLatestIssue pg false i1 = displayLatestIssue pg false i2 := by
  unfold displayLatestIssue latestIssueHtml cardHeader cardFooter
  simp only [htitle, hsummary, hslug, hdl, hpub, Bool.false_eq_true, if_false]

/-- Witness for C16: the sample issue and the same issue with another full content. -/
theorem displayLatestIssue_noninterference_witness :
    displayLatestIssue samplePage false sampleIssue =
      displayLatestIssue samplePage false sampleIssueRewritten ∧
    sampleIssue.full_content ≠ sampleIssueRewritten.full_content :=
  ⟨displayLatestIssue_noninterference samplePage sampleIssue sampleIssueRewritten
      rfl rfl rfl rfl rfl rfl rfl, by decide⟩


theorem flatten_map_single {α : Type} (l : List α) : (l.map fun s => [s]).flatten = l := by
  induction l with
  | nil => rfl
  | cons a t ih => simp [ih]

theorem mem_plus_notSpaceAt (x : List EmailChar) :
    x ∈ (notSpaceAt * RegularExpression.star notSpaceAt).matches' ↔
      x ≠ [] ∧ ∀ s ∈ x, s = EmailChar.dot ∨ s = EmailChar.other := by
  have hone : ∀ y : List EmailChar, y ∈ notSpaceAt.matches' ↔
      y = [EmailChar.dot] ∨ y = [EmailChar.other] := by
    intro y
    rw [notSpaceAt, RegularExpression.matches'_add, RegularExpression.matches'_char,
      RegularExpression.matches'_char, Language.mem_add]
    exact Iff.rfl
  rw [RegularExpression.matches'_mul, RegularExpression.matches'_star, Language.mem_mul]
  constructor
  · rintro ⟨a, ha, b, hb, rfl⟩
    rw [Language.mem_kstar] at hb
    obtain ⟨L, rfl, hL⟩ := hb
    have ha2 := (hone a).1 ha
    constructor
    · rcases ha2 with h | h <;> simp [h]
    · intro s hs
      rcases List.mem_append.1 hs with h | h
      · rcases ha2 with h2 | h2 <;> simp [h2] at h <;> simp [h]
      · obtain ⟨y, hy, hsy⟩ := List.mem_flatten.1 h
        rcases (hone y).1 (hL y hy) with h2 | h2 <;> simp [h2] at hsy <;> simp [hsy]
  · rintro ⟨hne, hall⟩
    cases x with
    | nil => exact absurd rfl hne
    | cons s rest =>
      refine ⟨[s], (hone [s]).2 ?_, rest, ?_, rfl⟩
      · rcases hall s (List.mem_cons_self s rest) with h | h <;> simp [h]
      · rw [Language.mem_kstar]
        refine ⟨rest.map fun s => [s], (flatten_map_single rest).symm, ?_⟩
        intro y hy
        obtain ⟨t, ht, rfl⟩ := List.mem_map.1 hy
        rcases hall t (List.mem_cons_of_mem s ht) with h | h <;>
          exact (hone [t]).2 (by simp [h])

theorem mem_emailRegex (x : List EmailChar) :
    x ∈ emailRegex.matches' ↔
      ∃ a b c, (a ≠ [] ∧ ∀ s ∈ a, s = EmailChar.dot ∨ s = EmailChar.other) ∧
        (b ≠ [] ∧ ∀ s ∈ b, s = EmailChar.dot ∨ s = EmailChar.other) ∧
        (c ≠ [] ∧ ∀ s ∈ c, s = EmailChar.dot ∨ s = EmailChar.other) ∧
        x = a ++ [EmailChar.at] ++ b ++ [EmailChar.dot] ++ c := by
  have hchar : ∀ (s : EmailChar) (y : List EmailChar),
      y ∈ (RegularExpression.char s).matches' ↔ y = [s] := by
    intro s y
    rw [RegularExpression.matches'_char]
    exact Iff.rfl
  unfold emailRegex
  simp only [RegularExpression.matches'_mul (_ * _) _, Language.mem_mul, hchar,
    mem_plus_notSpaceAt]
  constructor
  · rintro ⟨p4, ⟨p3, ⟨p2, ⟨a, ha, at1, hat, rfl⟩, b, hb, rfl⟩, d1, hd, rfl⟩, c, hc, rfl⟩
    subst hat hd
    exact ⟨a, b, c, ha, hb, hc, rfl⟩
  · rintro ⟨a, b, c, ha, hb, hc, rfl⟩
    exact ⟨_, ⟨_, ⟨_, ⟨a, ha, _, rfl, rfl⟩, b, hb, rfl⟩, _, rfl, rfl⟩, c, hc, rfl⟩

theorem classify_eq_at (c : Nat) : classify c = EmailChar.at ↔ c = 64 := by
  unfold classify
  split_ifs <;> simp_all

theorem classify_eq_dot (c : Nat) : classify c = EmailChar.dot ↔ c = 46 := by
  unfold classify
  split_ifs <;> simp_all

theorem classify_plain (c : Nat) :
    (classify c = EmailChar.dot ∨ classify c = EmailChar.other) ↔
      (isWhiteSpace c = false ∧ c ≠ 64) := by
  unfold classify
  by_cases h1 : c = 64
  · simp [h1]
  · by_cases h2 : c = 46
    · subst h2
      simp
      decide
    · by_cases h3 : isWhiteSpace c = true
      · simp [h1, h2, h3]
      · simp [h1, h2, h3]

theorem plain_map (a : JSString) :
    ((a.map classify) ≠ [] ∧
        ∀ s ∈ a.map classify, s = EmailChar.dot ∨ s = EmailChar.other) ↔
      (a ≠ [] ∧ ∀ x ∈ a, isWhiteSpace x = false ∧ x ≠ 64) := by
  constructor
  · rintro ⟨h1, h2⟩
    refine ⟨fun h => h1 (by simp [h]), fun x hx => ?_⟩
    exact (classify_plain x).1 (h2 _ (List.mem_map_of_mem classify hx))
  · rintro ⟨h1, h2⟩
    refine ⟨fun h => h1 (by simpa using h), fun s hs => ?_⟩
    obtain ⟨x, hx, rfl⟩ := List.mem_map.1 hs
    exact (classify_plain x).2 (h2 x hx)

theorem isValidEmail_iff (email : JSString) :
    isValidEmail email = true ↔
      ∃ a b c : JSString, a ≠ [] ∧ b ≠ [] ∧ c ≠ [] ∧
        (∀ x ∈ a ++ b ++ c, isWhiteSpace x = false ∧ x ≠ 64) ∧
        email = a ++ js "@" ++ b ++ js "." ++ c := by
  have hat : js "@" = [64] := by decide
  have hdot : js "." = [46] := by decide
  unfold isValidEmail
  rw [RegularExpression.rmatch_iff_matches', mem_emailRegex, hat, hdot]
  constructor
  · rintro ⟨A, B, C, hA, hB, hC, hx⟩
    simp only [List.append_assoc] at hx
    obtain ⟨a, r1, rfl, rfl, h1⟩ := List.map_eq_append_iff.1 hx
    obtain ⟨x1, r2, rfl, hx1, h2⟩ := List.map_eq_append_iff.1 h1
    obtain ⟨b, r3, rfl, rfl, h3⟩ := List.map_eq_append_iff.1 h2
    obtain ⟨x2, c, rfl, hx2, rfl⟩ := List.map_eq_append_iff.1 h3
    obtain ⟨y1, t1, rfl, hy1, ht1⟩ := List.map_eq_cons_iff.1 hx1
    obtain ⟨y2, t2, rfl, hy2, ht2⟩ := List.map_eq_cons_iff.1 hx2
    have e1 : t1 = [] := by simpa using ht1
    have e2 : t2 = [] := by simpa using ht2
    subst e1 e2
    have e3 := (classify_eq_at y1).1 hy1
    have e4 := (classify_eq_dot y2).1 hy2
    subst e3 e4
    obtain ⟨ha1, ha2⟩ := (plain_map a).1 hA
    obtain ⟨hb1, hb2⟩ := (plain_map b).1 hB
    obtain ⟨hc1, hc2⟩ := (plain_map c).1 hC
    refine ⟨a, b, c, ha1, hb1, hc1, ?_, by simp⟩
    intro x hx
    simp only [List.mem_append] at hx
    rcases hx with (h | h) | h
    · exact ha2 x h
    · exact hb2 x h
    · exact hc2 x h
  · rintro ⟨a, b, c, ha, hb, hc, hall, rfl⟩
    refine ⟨a.map classify, b.map classify, c.map classify,
      (plain_map a).2 ⟨ha, fun x hx => hall x (by simp [hx])⟩,
      (plain_map b).2 ⟨hb, fun x hx => hall x (by simp [hx])⟩,
      (plain_map c).2 ⟨hc, fun x hx => hall x (by simp [hx])⟩, ?_⟩
    simp [classify]

/-- C14: `handleNewsletterSubmit` calls `subscribeToNewsletter`, with the trimmed input,
exactly when `isValidEmail` accepts the trimmed input; otherwise it alerts and does not
subscribe.  `isValidEmail` accepts a string exactly when it is `a + '@' + b + '.' + c` for
non-empty `a`, `b`, `c` none of which contains white space or `@`. -/
theorem handleNewsletterSubmit_validates (hasNewsletterEmail : Bool) (value : JSString) :
    ((∃ e, NewsletterEffect.subscribe e ∈ handleNewsletterSubmit hasNewsletterEmail value) ↔
      isValidEmail (trim value) = true) ∧
    (∀ e, NewsletterEffect.subscribe e ∈ handleNewsletterSubmit hasNewsletterEmail value →
      e = trim value) ∧
    (isValidEmail (trim value) = false →
      handleNewsletterSubmit hasNewsletterEmail value =
        [NewsletterEffect.preventDefault,
         NewsletterEffect.alert (js "Please enter a valid email address.")]) ∧
    (∀ email : JSString, isValidEmail email = true ↔
      ∃ a b c : JSString, a ≠ [] ∧ b ≠ [] ∧ c ≠ [] ∧
        (∀ x ∈ a ++ b ++ c, isWhiteSpace x = false ∧ x ≠ 64) ∧
        email = a ++ js "@" ++ b ++ js "." ++ c) := by
  have hempty : isValidEmail [] = false := by decide
  have hinvalid : isValidEmail (trim value) = false →
      handleNewsletterSubmit hasNewsletterEmail value =
        [NewsletterEffect.preventDefault,
         NewsletterEffect.alert (js "Please enter a valid email address.")] := by
    intro h
    unfold handleNewsletterSubmit
    by_cases h0 : trim value = []
    · rw [if_pos h0]
    · rw [if_neg h0, if_pos h]
  have hvalid : isValidEmail (trim value) = true →
      handleNewsletterSubmit hasNewsletterEmail value =
        NewsletterEffect.preventDefault :: NewsletterEffect.subscribe (trim value) ::
          subscribeToNewsletter hasNewsletterEmail (trim value) := by
    intro h
    have h0 : trim value ≠ [] := by
      intro h0
      rw [h0, hempty] at h
      cases h
    unfold handleNewsletterSubmit
    rw [if_neg h0, if_neg (by simp [h])]
  have hmem : ∀ e, NewsletterEffect.subscribe e ∈
      handleNewsletterSubmit hasNewsletterEmail value →
      isValidEmail (trim value) = true ∧ e = trim value := by
    intro e he
    cases hv : isValidEmail (trim value) with
    | false =>
      rw [hinvalid hv] at he
      simp at he
    | true =>
      rw [hvalid hv] at he
      simp only [subscribeToNewsletter, List.mem_cons, NewsletterEffect.subscribe.injEq] at he
      rcases he with he | he | he | he
      · cases he
      · exact ⟨rfl, he⟩
      · cases he
      · split_ifs at he <;> simp at he
  refine ⟨⟨?_, ?_⟩, fun e he => (hmem e he).2, hinvalid, isValidEmail_iff⟩
  · rintro ⟨e, he⟩
    exact (hmem e he).1
  · intro hv
    exact ⟨trim value, by rw [hvalid hv]; simp⟩

/-- Witness for C14: a padded address is subscribed, and a text without `@` is refused with
the alert. -/
theorem handleNewsletterSubmit_validates_witness :
    (∃ e, NewsletterEffect.subscribe e ∈
      handleNewsletterSubmit true (js "  reader@example.com ")) ∧
    handleNewsletterSubmit true (js "not an address") =
      [NewsletterEffect.preventDefault,
       NewsletterEffect.alert (js "Please enter a valid email address.")] :=
  ⟨(handleNewsletterSubmit_validates true (js "  reader@example.com ")).1.2 (by decide),
    (handleNewsletterSubmit_validates true (js "not an address")).2.2.1 (by decide)⟩

theorem settled_first {α : Type} (w : Nat) (c : Nat × α) :
    settled w c (callAt (debounce w) c) := by
  refine ⟨rfl, ?_, rfl, 1, rfl, ?_⟩
  · simp [callAt, executedFunction, runTimers, runTimersFuel, debounce]
  · simp [callAt, executedFunction, runTimers, runTimersFuel, debounce, clearTimeout]

theorem settled_next {α : Type} (w : Nat) (c d : Nat × α) (s : Debounced α)
    (hs : settled w c s) (h1 : c.1 ≤ d.1) (h2 : d.1 < c.1 + w) :
    settled w d (callAt s d) := by
  obtain ⟨hw, hnow, hinv, id, hto, hp⟩ := hs
  have hnot : ¬ c.1 + w ≤ d.1 := by omega
  have hrun : runTimers d.1 s = { s with now := d.1 } := by
    simp only [runTimers, hp, List.length_singleton, runTimersFuel, earliest, hnot, if_false,
      hnow]
    congr 1
    omega
  refine ⟨?_, ?_, ?_, s.nextId, ?_, ?_⟩
  · simp [callAt, executedFunction, hrun, hw]
  · simp [callAt, executedFunction, hrun]
  · simp [callAt, executedFunction, hrun, hinv]
  · simp [callAt, executedFunction, hrun]
  · simp [callAt, executedFunction, hrun, hp, hto, clearTimeout, hw]

theorem settled_callsAt {α : Type} (w : Nat) (rest : List (Nat × α)) (c : Nat × α)
    (s : Debounced α) (hs : settled w c s) (hr : rapid w (c :: rest)) :
    settled w ((c :: rest).getLast (List.cons_ne_nil c rest)) (callsAt rest s) := by
  induction rest generalizing c s with
  | nil => exact hs
  | cons d ds ih =>
    have hcd := (List.chain'_cons.1 hr).1
    have hrest : rapid w (d :: ds) := (List.chain'_cons.1 hr).2
    have hnext := settled_next w c d s hs hcd.1 hcd.2
    have h := ih d (callAt s d) hnext hrest
    rw [List.getLast_cons (List.cons_ne_nil d ds)]
    exact h

theorem settled_fires {α : Type} (w : Nat) (c : Nat × α) (s : Debounced α)
    (hs : settled w c s) (T : Nat) :
    (runTimers T s).invoked = (if c.1 + w ≤ T then [(c.1 + w, c.2)] else []) ∧
    (c.1 + w ≤ T → (runTimers T s).pending = []) := by
  obtain ⟨hw, hnow, hinv, id, hto, hp⟩ := hs
  by_cases hT : c.1 + w ≤ T
  · simp [runTimers, hp, runTimersFuel, earliest, hT, later, clearTimeout, hinv, hnow]
  · simp [runTimers, hp, runTimersFuel, earliest, hT, hinv]

theorem runTimers_idle {α : Type} (T : Nat) (s : Debounced α) (h : s.pending = []) :
    (runTimers T s).invoked = s.invoked := by
  simp [runTimers, h, runTimersFuel]

/-- C17: with the timers as explicit state, after any sequence of calls of a function made
by `debounce(f, w)` in which each call arrives less than `w` ms after the previous one, `f`
has not been invoked (no call invokes it synchronously) and exactly one timer is pending,
the timer of the last call, those of the earlier calls having been cancelled; the event loop
then invokes `f` exactly once, `w` ms after the last call and with the arguments of the last
call, and never again.  The search input is debounced with `w = 300`. -/
theorem debounce_invokes_once {α : Type} (w : Nat) (first : Nat × α)
    (rest : List (Nat × α)) (T T2 : Nat) (hr : rapid w (first :: rest)) :
    (callsAt (first :: rest) (debounce w)).invoked = [] ∧
    (∃ id, (callsAt (first :: rest) (debounce w)).pending =
      [{ id := id
         due := ((first :: rest).getLast (List.cons_ne_nil first rest)).1 + w
         args := ((first :: rest).getLast (List.cons_ne_nil first rest)).2 }]) ∧
    (runTimers T (callsAt (first :: rest) (debounce w))).invoked =
      (if ((first :: rest).getLast (List.cons_ne_nil first rest)).1 + w ≤ T then
        [(((first :: rest).getLast (List.cons_ne_nil first rest)).1 + w,
          ((first :: rest).getLast (List.cons_ne_nil first rest)).2)]
      else []) ∧
    (((first :: rest).getLast (List.cons_ne_nil first rest)).1 + w ≤ T →
      (runTimers T2 (runTimers T (callsAt (first :: rest) (debounce w)))).invoked =
        [(((first :: rest).getLast (List.cons_ne_nil first rest)).1 + w,
          ((first :: rest).getLast (List.cons_ne_nil first rest)).2)]) ∧
    searchInputHandler.wait = 300 := by
  have hs : settled w ((first :: rest).getLast (List.cons_ne_nil first rest))
      (callsAt (first :: rest) (debounce w)) :=
    settled_callsAt w rest first (callAt (debounce w) first) (settled_first w first) hr
  obtain ⟨hfire, hidle⟩ := settled_fires w _ _ hs T
  obtain ⟨_, _, hinv, id, _, hp⟩ := hs
  refine ⟨hinv, ⟨id, hp⟩, hfire, ?_, rfl⟩
  intro hT
  rw [runTimers_idle T2 _ (hidle hT), hfire, if_pos hT]

/-- Witness for C17: three keystrokes 120 and 130 ms apart in the search input; the handler
runs once, 300 ms after the last one, with the last text. -/
theorem debounce_invokes_once_witness :
    (runTimers 1000
      (callsAt [(0, js "p"), (120, js "py"), (250, js "pyt")] searchInputHandler)).invoked =
      [(550, js "pyt")] :=
  (debounce_invokes_once 300 (0, js "p") [(120, js "py"), (250, js "pyt")] 1000 1000
    (by simp [rapid])).2.2.1


end PythonBrief
